import Mathlib

/-!
Verification development for the recipist-mastra content pipeline.

The TypeScript source is embedded shallowly: strings are `List Char`,
JavaScript string/regex operations are modelled as recursive functions on
character lists, the workflow steps of `url-processor-workflow` are
functions on an explicit pipeline-state record, and the external
collaborators (HTTP fetch, LLM agents) are parameters of the pipeline.
-/

namespace Recipist

/-- Strings are modelled as lists of characters. -/
abbrev Str := List Char

/-- Coerce a Lean string literal to the model representation. -/
def str (s : String) : Str := s.toList

/-- JavaScript whitespace (`\s`, and the set trimmed by `String.trim`),
restricted to the code points that can occur in this code base:
space, tab, LF, CR, vertical tab, form feed, NBSP and BOM. -/
def isJsWs (c : Char) : Bool :=
  c = ' ' || c = '\t' || c = '\n' || c = '\r' || c = '\x0b' || c = '\x0c' ||
  c = ' ' || c = '﻿'

/-- JavaScript line terminators (the characters `.` does not match). -/
def isLineTerm (c : Char) : Bool :=
  c = '\n' || c = '\r'

/-- ASCII letter. -/
def isAsciiAlpha (c : Char) : Bool :=
  ('a' ≤ c && c ≤ 'z') || ('A' ≤ c && c ≤ 'Z')

/-- ASCII digit. -/
def isAsciiDigit (c : Char) : Bool :=
  '0' ≤ c && c ≤ '9'

/-- ASCII letter or digit. -/
def isAsciiAlnum (c : Char) : Bool :=
  isAsciiAlpha c || isAsciiDigit c

/-- JavaScript regex word character (`\w`): letters, digits, underscore. -/
def isWordChar (c : Char) : Bool :=
  isAsciiAlnum c || c = '_'

/-- ASCII lower-casing of one character (model of `toLowerCase` on the
ASCII range; non-ASCII characters are left unchanged). -/
def asciiLower (c : Char) : Char :=
  if 'A' ≤ c && c ≤ 'Z' then Char.ofNat (c.toNat + 32) else c

/-- ASCII lower-casing of a string. -/
def lowerStr (l : Str) : Str := l.map asciiLower

/-- Model of JavaScript `String.trim`: drop whitespace on both ends. -/
def jsTrim (l : Str) : Str :=
  ((l.dropWhile isJsWs).reverse.dropWhile isJsWs).reverse

/-- Boolean prefix test. -/
def pfx? : Str → Str → Bool
  | [], _ => true
  | _ :: _, [] => false
  | p :: ps, c :: cs => p = c && pfx? ps cs

/-- Case-insensitive (ASCII) prefix test. -/
def ciPfx? : Str → Str → Bool
  | [], _ => true
  | _ :: _, [] => false
  | p :: ps, c :: cs => asciiLower p = asciiLower c && ciPfx? ps cs

/-- Model of JavaScript `String.includes`: substring occurrence test. -/
def hasInfix (pat : Str) : Str → Bool
  | [] => pfx? pat []
  | c :: rest => pfx? pat (c :: rest) || hasInfix pat rest

/-- Split a string at the first position where `matchAt` holds, consuming
`patLen` characters there; returns the part before the occurrence and the
part after it (model of the way a lazy regex locates its first match). -/
def splitOnFirstP (matchAt : Str → Bool) (patLen : Nat) : Str → Option (Str × Str)
  | [] => if matchAt [] then some ([], []) else none
  | c :: rest =>
    if matchAt (c :: rest) then some ([], (c :: rest).drop patLen)
    else (splitOnFirstP matchAt patLen rest).map (fun pr => (c :: pr.1, pr.2))

/-- Split at the first occurrence of the literal `pat`. -/
def splitOnFirst (pat : Str) : Str → Option (Str × Str) :=
  splitOnFirstP (pfx? pat) pat.length

/-- Split at the first case-insensitive occurrence of `pat`. -/
def ciSplitOnFirst (pat : Str) : Str → Option (Str × Str) :=
  splitOnFirstP (ciPfx? pat) pat.length

/-- Decimal digits of a natural number (for error-message formatting). -/
def natToStr (n : Nat) : Str :=
  Nat.toDigits 10 n

/-- `parseInt` on a run of decimal digits. -/
def digitsToNat (l : Str) : Nat :=
  l.foldl (fun acc c => acc * 10 + (c.toNat - '0'.toNat)) 0

/-- Truthiness of an optional string in JavaScript: present and nonempty. -/
def truthy : Option Str → Bool
  | some l => !l.isEmpty
  | none => false

theorem length_dropWhile_le (p : Char → Bool) (l : Str) :
    (l.dropWhile p).length ≤ l.length := by
  induction l with
  | nil => simp [List.dropWhile]
  | cons c rest ih =>
    by_cases h : p c
    · simpa [List.dropWhile, h] using Nat.le_succ_of_le ih
    · simp [List.dropWhile, h]

theorem splitOnFirstP_length {matchAt : Str → Bool} {patLen : Nat} {l a r : Str}
    (h : splitOnFirstP matchAt patLen l = some (a, r)) :
    r.length ≤ l.length := by
  induction l generalizing a with
  | nil =>
    simp only [splitOnFirstP] at h
    split at h
    · simp_all
    · simp_all
  | cons c rest ih =>
    simp only [splitOnFirstP] at h
    split at h
    · have hr : (c :: rest).drop patLen = r := by
        simpa using congrArg Prod.snd (Option.some_injective _ h)
      rw [← hr]
      simp only [List.length_drop]
      exact Nat.sub_le _ _
    · cases h2 : splitOnFirstP matchAt patLen rest with
      | none => simp [h2] at h
      | some pr =>
        simp only [h2, Option.map_some] at h
        have h4 : pr.2 = r := by
          simpa using congrArg Prod.snd (Option.some_injective _ h)
        have := ih (a := pr.1) (by rw [h2, ← h4])
        exact Nat.le_succ_of_le this

theorem splitOnFirst_length {pat : Str} {l a r : Str}
    (h : splitOnFirst pat l = some (a, r)) :
    r.length ≤ l.length :=
  splitOnFirstP_length h

theorem ciSplitOnFirst_length {pat : Str} {l a r : Str}
    (h : ciSplitOnFirst pat l = some (a, r)) :
    r.length ≤ l.length :=
  splitOnFirstP_length h

/-! ## URL parsing

`src/utils/urlUtils.ts` delegates URL validation to the platform's
WHATWG `new URL(input)` constructor.  The functions below are a model of
that parser ("Modelled from the spec": the platform URL parser is not
part of the repository).  The model covers absolute-URL parsing without
a base: whitespace stripping, scheme parsing, the special schemes
(http, https, ws, wss, ftp, file) with mandatory host, authority /
userinfo / port splitting, forbidden-host-character validation, and
opaque paths for non-special schemes.  Percent-decoding, IDNA/punycode,
IPv6 bracket hosts and IPv4 numeric normalization are outside the model.
-/

/-- A parsed URL record; only the components the repository reads. -/
structure URLRec where
  scheme : Str
  host : Option Str
  deriving Repr, DecidableEq

/-- Scheme characters after the first (ASCII alphanumeric, `+`, `-`, `.`). -/
def isSchemeChar (c : Char) : Bool :=
  isAsciiAlnum c || c = '+' || c = '-' || c = '.'

/-- The WHATWG special schemes. -/
def specialSchemes : List Str :=
  [str "http", str "https", str "ws", str "wss", str "ftp", str "file"]

/-- Forbidden host code points (WHATWG). -/
def forbiddenHostChar (c : Char) : Bool :=
  c = '\x00' || c = '\t' || c = '\n' || c = '\r' || c = ' ' || c = '#' ||
  c = '/' || c = ':' || c = '<' || c = '>' || c = '?' || c = '@' ||
  c = '[' || c = '\\' || c = ']' || c = '^' || c = '|'

/-- The part of an authority after the last `@` (host and port; the part
before it is userinfo). -/
def afterLastAt (l : Str) : Str :=
  (l.reverse.takeWhile (fun c => c ≠ '@')).reverse

/-- Validate and extract the host from an authority string.  `special`
hosts are ASCII lower-cased (domains); opaque hosts keep their case. -/
def parseHostFromAuthority (authority : Str) (special : Bool) : Option Str :=
  let hp := afterLastAt authority
  let host := hp.takeWhile (fun c => c ≠ ':')
  let portPart := hp.dropWhile (fun c => c ≠ ':')
  let portDigits := portPart.drop 1
  if host.any forbiddenHostChar then none
  else if !portPart.isEmpty && !portDigits.all isAsciiDigit then none
  else if !portDigits.isEmpty && digitsToNat portDigits > 65535 then none
  else some (if special then lowerStr host else host)

/-- Authority terminator characters (the host span of a URL ends at the
first of these). -/
def isAuthorityEnd (special : Bool) (c : Char) : Bool :=
  c = '/' || c = '?' || c = '#' || (special && c = '\\')

/-- Parse the remainder of a URL after `scheme:`. -/
def parseAfterScheme (scheme rem : Str) : Option URLRec :=
  if scheme ∈ specialSchemes then
    if scheme = str "file" then
      if pfx? (str "//") rem then
        (parseHostFromAuthority
            ((rem.drop 2).takeWhile (fun c => !isAuthorityEnd true c))
            true).map (fun h => ⟨scheme, some h⟩)
      else some ⟨scheme, some []⟩
    else
      match parseHostFromAuthority
          ((rem.dropWhile (fun c => c = '/' || c = '\\')).takeWhile
            (fun c => !isAuthorityEnd true c)) true with
      | some h => if h.isEmpty then none else some ⟨scheme, some h⟩
      | none => none
  else
    if pfx? (str "//") rem then
      (parseHostFromAuthority
          ((rem.drop 2).takeWhile (fun c => !isAuthorityEnd false c))
          false).map (fun h => ⟨scheme, some h⟩)
    else some ⟨scheme, none⟩

/-- Strip leading/trailing C0-control-or-space and remove all tab, LF
and CR characters (the WHATWG input preprocessing). -/
def preprocessUrlInput (input : Str) : Str :=
  (((input.dropWhile (fun c => c ≤ ' ')).reverse.dropWhile
    (fun c => c ≤ ' ')).reverse).filter
    (fun c => c ≠ '\t' && c ≠ '\n' && c ≠ '\r')

/-- Model of the WHATWG basic URL parser (absolute URLs, no base), as
invoked by `new URL(input)`. -/
def parseURL (input : Str) : Option URLRec :=
  match preprocessUrlInput input with
  | c :: rest =>
    if isAsciiAlpha c then
      match rest.dropWhile isSchemeChar with
      | ':' :: rem =>
        parseAfterScheme (lowerStr (c :: rest.takeWhile isSchemeChar)) rem
      | _ => none
    else none
  | [] => none

/-- The `hostname` property of a parsed URL (empty for opaque-path URLs). -/
def getHostname (u : URLRec) : Str := u.host.getD []

/-- Following the spec's words for the `isUrl` contract: the input parses
as an absolute URL *with both a scheme and an authority present*.  Kept
separate from `isValidUrl` (which embeds the source) so the two can be
compared. -/
def urlHasSchemeAndAuthority (input : Str) : Bool :=
  match parseURL input with
  | some u => u.host.isSome
  | none => false

/-- `isValidUrl` from `src/utils/urlUtils.ts`: `new URL(input)` inside
try/catch. -/
def isValidUrl (input : Str) : Bool := (parseURL input).isSome

/-- Result shape of `detectSocialProvider`. -/
structure SocialCheck where
  isSocial : Bool
  provider : Option Str
  displayName : Option Str
  deriving Repr, DecidableEq

/-- The hostname preparation of `detectSocialProvider`: lowercase, then
strip one leading `www.` (`hostname.replace(/^www\./, "")`). -/
def cleanHostname (u : URLRec) : Str :=
  let hostname := lowerStr (getHostname u)
  if pfx? (str "www.") hostname then hostname.drop 4 else hostname

/-- `detectSocialProvider` from `src/utils/urlUtils.ts`: lowercase the
hostname, strip a leading `www.`, and test the provider substrings in
source order. -/
def detectSocialProvider (url : Str) : SocialCheck :=
  match parseURL url with
  | none => ⟨false, none, none⟩
  | some u =>
    let cleanHostname := cleanHostname u
    if hasInfix (str "tiktok.com") cleanHostname then
      ⟨true, some (str "tiktok"), some (str "TikTok")⟩
    else if hasInfix (str "instagram.com") cleanHostname then
      ⟨true, some (str "instagram"), some (str "Instagram")⟩
    else if hasInfix (str "facebook.com") cleanHostname ||
        hasInfix (str "fb.com") cleanHostname then
      ⟨true, some (str "facebook"), some (str "Facebook")⟩
    else if hasInfix (str "pinterest.com") cleanHostname ||
        hasInfix (str "pin.it") cleanHostname then
      ⟨true, some (str "pinterest"), some (str "Pinterest")⟩
    else if hasInfix (str "twitter.com") cleanHostname ||
        hasInfix (str "x.com") cleanHostname ||
        hasInfix (str "t.co") cleanHostname then
      ⟨true, some (str "x"), some (str "X (Twitter)")⟩
    else ⟨false, none, none⟩

/-- The fixed provider table of `detectSocialProvider`, in source order:
hostname substrings, provider id, display name. -/
def socialTable : List (List Str × Str × Str) :=
  [([str "tiktok.com"], str "tiktok", str "TikTok"),
   ([str "instagram.com"], str "instagram", str "Instagram"),
   ([str "facebook.com", str "fb.com"], str "facebook", str "Facebook"),
   ([str "pinterest.com", str "pin.it"], str "pinterest", str "Pinterest"),
   ([str "twitter.com", str "x.com", str "t.co"], str "x", str "X (Twitter)")]

/-- Whether a provider-table row matches a cleaned hostname. -/
def rowMatches (ch : Str) (row : List Str × Str × Str) : Bool :=
  row.1.any (fun p => hasInfix p ch)

/-! ## Language resolution (`src/utils/languageUtils.ts`) -/

/-- The `languageMap` constant of `getLanguageISOCode`, in source
(insertion) order. -/
def languageMap : List (Str × Str) :=
  [(str "english", str "en"), (str "spanish", str "es"),
   (str "french", str "fr"), (str "german", str "de"),
   (str "italian", str "it"), (str "portuguese", str "pt"),
   (str "russian", str "ru"), (str "chinese", str "zh"),
   (str "japanese", str "ja"), (str "korean", str "ko"),
   (str "arabic", str "ar"), (str "hindi", str "hi"),
   (str "dutch", str "nl"), (str "swedish", str "sv"),
   (str "norwegian", str "no"), (str "danish", str "da"),
   (str "finnish", str "fi"), (str "polish", str "pl"),
   (str "czech", str "cs"), (str "hungarian", str "hu"),
   (str "greek", str "el"), (str "hebrew", str "he"),
   (str "thai", str "th"), (str "vietnamese", str "vi"),
   (str "turkish", str "tr"), (str "indonesian", str "id"),
   (str "malay", str "ms"), (str "filipino", str "tl"),
   (str "ukrainian", str "uk"), (str "romanian", str "ro"),
   (str "bulgarian", str "bg"), (str "croatian", str "hr"),
   (str "serbian", str "sr"), (str "slovak", str "sk"),
   (str "slovenian", str "sl"), (str "lithuanian", str "lt"),
   (str "latvian", str "lv"), (str "estonian", str "et"),
   (str "catalan", str "ca"), (str "basque", str "eu"),
   (str "galician", str "gl"), (str "irish", str "ga"),
   (str "welsh", str "cy"), (str "scottish", str "gd"),
   (str "icelandic", str "is"), (str "maltese", str "mt"),
   (str "luxembourgish", str "lb"), (str "albanian", str "sq"),
   (str "macedonian", str "mk"), (str "belarusian", str "be"),
   (str "georgian", str "ka"), (str "armenian", str "hy"),
   (str "azerbaijani", str "az"), (str "kazakh", str "kk"),
   (str "uzbek", str "uz"), (str "kyrgyz", str "ky"),
   (str "tajik", str "tg"), (str "turkmen", str "tk"),
   (str "mongolian", str "mn"), (str "tibetan", str "bo"),
   (str "burmese", str "my"), (str "khmer", str "km"),
   (str "lao", str "lo"), (str "bengali", str "bn"),
   (str "urdu", str "ur"), (str "punjabi", str "pa"),
   (str "gujarati", str "gu"), (str "marathi", str "mr"),
   (str "tamil", str "ta"), (str "telugu", str "te"),
   (str "kannada", str "kn"), (str "malayalam", str "ml"),
   (str "sinhalese", str "si"), (str "nepali", str "ne"),
   (str "persian", str "fa"), (str "farsi", str "fa"),
   (str "dari", str "prs"), (str "pashto", str "ps"),
   (str "kurdish", str "ku"), (str "swahili", str "sw"),
   (str "yoruba", str "yo"), (str "igbo", str "ig"),
   (str "hausa", str "ha"), (str "amharic", str "am"),
   (str "oromo", str "om"), (str "somali", str "so"),
   (str "zulu", str "zu"), (str "xhosa", str "xh"),
   (str "afrikaans", str "af"), (str "mandarin", str "zh"),
   (str "cantonese", str "yue"), (str "simplified chinese", str "zh"),
   (str "traditional chinese", str "zh"), (str "mexican spanish", str "es"),
   (str "latin american spanish", str "es"), (str "castilian", str "es"),
   (str "brazilian portuguese", str "pt"),
   (str "european portuguese", str "pt"),
   (str "american english", str "en"), (str "british english", str "en"),
   (str "australian english", str "en"), (str "canadian english", str "en"),
   (str "canadian french", str "fr"), (str "quebec french", str "fr"),
   (str "swiss german", str "de"), (str "austrian german", str "de")]

/-- `getLanguageISOCode` from `src/utils/languageUtils.ts`: exact
lowercase lookup, then bidirectional substring containment in table
order, then two-lowercase-letter passthrough. -/
def getLanguageISOCode (language : Str) : Option Str :=
  if language.isEmpty then none
  else
    let languageLower := jsTrim (lowerStr language)
    match languageMap.find? (fun e => e.1 = languageLower) with
    | some e => some e.2
    | none =>
      match languageMap.find? (fun e =>
          hasInfix e.1 languageLower || hasInfix languageLower e.1) with
      | some e => some e.2
      | none =>
        if languageLower.length = 2 &&
            languageLower.all (fun c => 'a' ≤ c && c ≤ 'z') then
          some languageLower
        else none

/-! ## Unit categorization (`src/utils/index.ts`, `parseUnitsCategory`) -/

/-- The measurement dimensions accepted by `parseUnitsCategory`. -/
inductive UnitCategory
  | length
  | liquid
  | weight
  | temperature
  deriving Repr, DecidableEq

/-- The `unitPatterns` table of `parseUnitsCategory`, in source order. -/
def unitPatterns : UnitCategory → List Str
  | .length =>
    [str "cm", str "centimeter", str "inch", str "inches", str "mm",
     str "millimeter", str "meter", str "metres", str "feet", str "ft"]
  | .liquid =>
    [str "ml", str "milliliter", str "liter", str "litre", str "cup",
     str "cups", str "tablespoon", str "tbsp", str "teaspoon", str "tsp",
     str "fluid ounce", str "fl oz", str "pint", str "quart", str "gallon"]
  | .weight =>
    [str "gram", str "grams", str "g", str "kilogram", str "kg",
     str "ounce", str "oz", str "pound", str "pounds", str "lb", str "lbs"]
  | .temperature =>
    [str "celsius", str "c", str "fahrenheit", str "f", str "kelvin", str "k"]

/-- The generic fallback of `parseUnitsCategory` for inputs mentioning
`metric` or `imperial`. -/
def unitFallback (category : UnitCategory) (unitsLower : Str) : Option Str :=
  match category with
  | .length =>
    if hasInfix (str "metric") unitsLower then some (str "cm")
    else if hasInfix (str "imperial") unitsLower then some (str "inch")
    else none
  | .liquid =>
    if hasInfix (str "metric") unitsLower then some (str "ml")
    else if hasInfix (str "imperial") unitsLower then some (str "cup")
    else none
  | .weight =>
    if hasInfix (str "metric") unitsLower then some (str "grams")
    else if hasInfix (str "imperial") unitsLower then some (str "ounces")
    else none
  | .temperature =>
    if hasInfix (str "metric") unitsLower then some (str "celsius")
    else if hasInfix (str "imperial") unitsLower then some (str "fahrenheit")
    else none

/-- `parseUnitsCategory` from `src/utils/index.ts`: first substring match
in the per-category keyword list, then the metric/imperial fallback. -/
def parseUnitsCategory (units : Str) (category : UnitCategory) : Option Str :=
  let unitsLower := lowerStr units
  match (unitPatterns category).find? (fun u => hasInfix u unitsLower) with
  | some u => some u
  | none => unitFallback category unitsLower

/-! ## HTML cleaning (`htmlCleaner.ts`, regex/string based server variant)

Each helper models one of the global regex replacements of the source.
A global replace is modelled as a scan that, at each position, attempts
the pattern; on a match it emits the replacement and resumes after the
matched span (the semantics of `String.replace` with the `g` flag). -/

/-- One paired-tag removal pass: the global replace of
`<tag[^>]*>.*?</tag>` (flags `gis`) with the empty string. -/
def stripPairedTag (tag : Str) : Str → Str
  | [] => []
  | c :: rest =>
    if ciPfx? ('<' :: tag) (c :: rest) then
      match h1 : splitOnFirst [ '>' ] ((c :: rest).drop (tag.length + 1)) with
      | some (_, r1) =>
        match h2 : ciSplitOnFirst ('<' :: '/' :: tag ++ [ '>' ]) r1 with
        | some (_, r2) => stripPairedTag tag r2
        | none => c :: stripPairedTag tag rest
      | none => c :: stripPairedTag tag rest
    else c :: stripPairedTag tag rest
termination_by l => l.length
decreasing_by
  · have e1 := splitOnFirst_length h1
    have e2 := ciSplitOnFirst_length h2
    have e3 : (List.drop (tag.length + 1) (c :: rest)).length ≤ rest.length := by
      simp only [List.drop_succ_cons, List.length_drop]
      exact Nat.sub_le _ _
    simp only [List.length_cons]
    omega
  · simp [Nat.lt_succ_self]
  · simp [Nat.lt_succ_self]
  · simp [Nat.lt_succ_self]

/-- One self-closing-tag removal pass: the global replace of
`<tag[^>]*/>` (flags `gi`) with the empty string. -/
def stripSelfCloseTag (tag : Str) : Str → Str
  | [] => []
  | c :: rest =>
    if ciPfx? ('<' :: tag) (c :: rest) then
      match h1 : splitOnFirst [ '>' ] ((c :: rest).drop (tag.length + 1)) with
      | some (span, r1) =>
        if span.getLast? = some '/' then stripSelfCloseTag tag r1
        else c :: stripSelfCloseTag tag rest
      | none => c :: stripSelfCloseTag tag rest
    else c :: stripSelfCloseTag tag rest
termination_by l => l.length
decreasing_by
  · have e1 := splitOnFirst_length h1
    have e3 : (List.drop (tag.length + 1) (c :: rest)).length ≤ rest.length := by
      simp only [List.drop_succ_cons, List.length_drop]
      exact Nat.sub_le _ _
    simp only [List.length_cons]
    omega
  · simp [Nat.lt_succ_self]
  · simp [Nat.lt_succ_self]
  · simp [Nat.lt_succ_self]

/-- `removeUnwantedTags`: remove script, style and noscript elements,
paired form then self-closing form, in source order. -/
def removeUnwantedTags (html : Str) : Str :=
  stripSelfCloseTag (str "noscript") (stripPairedTag (str "noscript")
    (stripSelfCloseTag (str "style") (stripPairedTag (str "style")
      (stripSelfCloseTag (str "script") (stripPairedTag (str "script")
        html)))))

/-- `removeHtmlComments`: the global replace of `<!--[\s\S]*?-->` with
the empty string. -/
def removeHtmlComments : Str → Str
  | [] => []
  | c :: rest =>
    if pfx? (str "<!--") (c :: rest) then
      match h1 : splitOnFirst (str "-->") ((c :: rest).drop 4) with
      | some (_, r1) => removeHtmlComments r1
      | none => c :: removeHtmlComments rest
    else c :: removeHtmlComments rest
termination_by l => l.length
decreasing_by
  · have e1 := splitOnFirst_length h1
    have e3 : (List.drop 4 (c :: rest)).length ≤ rest.length := by
      simp only [List.drop_succ_cons, List.length_drop]
      exact Nat.sub_le _ _
    simp only [List.length_cons]
    omega
  · simp [Nat.lt_succ_self]
  · simp [Nat.lt_succ_self]

/-- Attempt the attribute pattern `name\s*=\s*["']([^"']*)["']` (flag `i`)
at the head of `l`, returning the captured value. -/
def tryAttrAt (name l : Str) : Option Str :=
  if ciPfx? name l then
    match (l.drop name.length).dropWhile isJsWs with
    | '=' :: r2 =>
      match r2.dropWhile isJsWs with
      | q :: r4 =>
        if q = '"' || q = '\'' then
          let v := r4.takeWhile (fun c => c ≠ '"' && c ≠ '\'')
          match r4.dropWhile (fun c => c ≠ '"' && c ≠ '\'') with
          | _ :: _ => some v
          | [] => none
        else none
      | [] => none
    | _ => none
  else none

/-- First match of the attribute pattern anywhere in `l`
(model of `String.match` with a non-global regex). -/
def findAttrVal (name : Str) : Str → Option Str
  | [] => none
  | c :: rest =>
    match tryAttrAt name (c :: rest) with
    | some v => some v
    | none => findAttrVal name rest

/-- The replacer callback of `removeAllAttributes`: for `img` tags keep
`src` and `alt` (re-emitted double-quoted, self-closing); all other tags
lose every attribute. -/
def attrReplacement (tagName matchText : Str) : Str :=
  if lowerStr tagName = str "img" then
    let srcPart : Str :=
      match findAttrVal (str "src") matchText with
      | some v => str " src=\"" ++ v ++ [ '"' ]
      | none => []
    let altPart : Str :=
      match findAttrVal (str "alt") matchText with
      | some v => str " alt=\"" ++ v ++ [ '"' ]
      | none => []
    let attributes := srcPart ++ altPart
    if attributes.isEmpty then '<' :: tagName ++ [ '>' ]
    else '<' :: tagName ++ attributes ++ str " />"
  else '<' :: tagName ++ [ '>' ]

/-- `removeAllAttributes`: the global replace of
`<([a-zA-Z][a-zA-Z0-9]*)[^>]*>` by `attrReplacement`. -/
def removeAllAttributes : Str → Str
  | [] => []
  | [c] => [c]
  | c :: d :: rest2 =>
    if c = '<' && isAsciiAlpha d then
      match h1 : splitOnFirst [ '>' ] (rest2.dropWhile isAsciiAlnum) with
      | some (attrSpan, r1) =>
        attrReplacement (d :: rest2.takeWhile isAsciiAlnum)
          ('<' :: (d :: rest2.takeWhile isAsciiAlnum) ++ attrSpan ++ [ '>' ]) ++
          removeAllAttributes r1
      | none => c :: removeAllAttributes (d :: rest2)
    else c :: removeAllAttributes (d :: rest2)
termination_by l => l.length
decreasing_by
  · have e1 := splitOnFirst_length h1
    have e2 := length_dropWhile_le isAsciiAlnum rest2
    simp only [List.length_cons]
    omega
  · simp [Nat.lt_succ_self]
  · simp [Nat.lt_succ_self]

/-- The global replace of `\s+` by a single space. -/
def collapseWs : Str → Str
  | [] => []
  | c :: rest =>
    if isJsWs c then ' ' :: collapseWs (rest.dropWhile isJsWs)
    else c :: collapseWs rest
termination_by l => l.length
decreasing_by
  · have := length_dropWhile_le isJsWs rest
    simp only [List.length_cons]
    omega
  · simp [Nat.lt_succ_self]

/-- The global replace of `>\s+<` by `><`. -/
def interTagWs : Str → Str
  | [] => []
  | c :: rest =>
    if c = '>' && !(rest.takeWhile isJsWs).isEmpty then
      match h1 : rest.dropWhile isJsWs with
      | d :: tail =>
        if d = '<' then '>' :: '<' :: interTagWs tail
        else c :: interTagWs rest
      | [] => c :: interTagWs rest
    else c :: interTagWs rest
termination_by l => l.length
decreasing_by
  · have e2 := length_dropWhile_le isJsWs rest
    rw [h1] at e2
    simp only [List.length_cons] at e2 ⊢
    omega
  · simp [Nat.lt_succ_self]
  · simp [Nat.lt_succ_self]
  · simp [Nat.lt_succ_self]

/-- `normalizeWhitespace_`: collapse whitespace runs, remove inter-tag
whitespace, trim. -/
def normalizeWhitespace_ (html : Str) : Str :=
  jsTrim (interTagWs (collapseWs html))

/-- The excluded (void) tags of the empty-element regex's negative
lookahead, in source order. -/
def voidTags : List Str :=
  [str "img", str "br", str "hr", str "input", str "meta", str "link",
   str "area", str "base", str "col", str "embed", str "source",
   str "track", str "wbr"]

/-- Read the tag-name group `([a-zA-Z][a-zA-Z0-9]*)\b`: an ASCII letter
followed by the maximal alphanumeric run, with a word-boundary check. -/
def readName : Str → Option (Str × Str)
  | [] => none
  | c :: rest =>
    if isAsciiAlpha c then
      match h : rest.dropWhile isAsciiAlnum with
      | d :: _ =>
        if isWordChar d then none
        else some (c :: rest.takeWhile isAsciiAlnum, rest.dropWhile isAsciiAlnum)
      | [] => some (c :: rest.takeWhile isAsciiAlnum, [])
    else none

/-- Consume `[^>]*>`: skip to the first `>` and consume it (the drop
condition stops exactly at a `>`, so a nonempty remainder starts with it). -/
def toGt (l : Str) : Option Str :=
  match l.dropWhile (fun c => c ≠ '>') with
  | _ :: r => some r
  | [] => none

/-- Attempt the closing part `</name>` (case-insensitive backreference)
at the head of `l`; on success return the remainder after it. -/
def closeTagAt (name l : Str) : Option Str :=
  match l with
  | a :: b :: r5 =>
    if a = '<' && b = '/' && ciPfx? name r5 then
      if (r5.drop name.length).head? = some '>' then
        some ((r5.drop name.length).drop 1)
      else none
    else none
  | _ => none

/-- Attempt the empty-element pattern
`<(?!img|br|…|wbr)([a-zA-Z][a-zA-Z0-9]*)\b[^>]*>\s*</\1>` (flags `gi`)
at the head of `l`; on success return the remainder after the match. -/
def tryEmptyElement (l : Str) : Option Str :=
  match l with
  | [] => none
  | c :: rest =>
    if c = '<' && !(voidTags.any (fun t => ciPfx? t rest)) then
      (readName rest).bind (fun nr =>
        (toGt nr.2).bind (fun r3 =>
          closeTagAt nr.1 (r3.dropWhile isJsWs)))
    else none

theorem readName_length {l : Str} {nm r : Str}
    (h : readName l = some (nm, r)) : r.length < l.length := by
  cases l with
  | nil => simp [readName] at h
  | cons c rest =>
    have hd := length_dropWhile_le isAsciiAlnum rest
    simp only [readName] at h
    split at h
    · split at h
      · split at h
        · exact absurd h (by simp)
        · have : rest.dropWhile isAsciiAlnum = r := by
            simpa using congrArg Prod.snd (Option.some_injective _ h)
          rw [← this]
          simp only [List.length_cons]
          omega
      · have : ([] : Str) = r := by
          simpa using congrArg Prod.snd (Option.some_injective _ h)
        rw [← this]
        simp
    · exact absurd h (by simp)

theorem toGt_length {l r : Str} (h : toGt l = some r) :
    r.length < l.length := by
  have hd := length_dropWhile_le (fun c => c ≠ '>') l
  simp only [toGt] at h
  split at h
  · rename_i g t heq
    have h2 := congrArg List.length heq
    simp only [List.length_cons] at h2
    cases Option.some_injective _ h
    omega
  · exact absurd h (by simp)

theorem closeTagAt_length {name l r : Str} (h : closeTagAt name l = some r) :
    r.length + 3 ≤ l.length := by
  cases l with
  | nil => simp [closeTagAt] at h
  | cons a tl =>
    cases tl with
    | nil => simp [closeTagAt] at h
    | cons b r5 =>
      simp only [closeTagAt] at h
      split at h
      · split at h
        · rename_i hhd
          cases Option.some_injective _ h
          have hne : r5.drop name.length ≠ [] := by
            intro he
            rw [he] at hhd
            simp at hhd
          have h1 : 1 ≤ (r5.drop name.length).length :=
            List.length_pos.mpr hne
          have h2 : ((r5.drop name.length).drop 1).length =
              (r5.drop name.length).length - 1 := by
            simp only [List.length_drop]
          have h3 : (r5.drop name.length).length ≤ r5.length := by
            simp [Nat.sub_le]
          simp only [List.length_cons]
          omega
        · simp at h
      · simp at h

theorem tryEmptyElement_lt {l r : Str} (h : tryEmptyElement l = some r) :
    r.length < l.length := by
  cases l with
  | nil => simp [tryEmptyElement] at h
  | cons c rest =>
    simp only [tryEmptyElement] at h
    split at h
    · cases hn : readName rest with
      | none => rw [hn] at h; simp at h
      | some nr =>
        rw [hn, Option.some_bind] at h
        cases hg : toGt nr.2 with
        | none => rw [hg] at h; simp at h
        | some r3 =>
          rw [hg, Option.some_bind] at h
          have hr1 := readName_length hn
          have hr3 := toGt_length hg
          have hwl := length_dropWhile_le isJsWs r3
          have hcl := closeTagAt_length h
          simp only [List.length_cons]
          omega
    · simp at h

/-- One global-replace pass of the empty-element regex: scan the string,
remove every (non-overlapping) match, resuming after each match. -/
def emptyElementPass : Str → Str
  | [] => []
  | c :: rest =>
    match h : tryEmptyElement (c :: rest) with
    | some r => emptyElementPass r
    | none => c :: emptyElementPass rest
termination_by l => l.length
decreasing_by
  · exact tryEmptyElement_lt h
  · simp [Nat.lt_succ_self]

/-- The do/while loop of `removeEmptyElements_`: run the replacement
twice per iteration and repeat while the string got shorter. -/
def emptyElementLoop (l : Str) : Str :=
  if h : (emptyElementPass (emptyElementPass l)).length < l.length then
    emptyElementLoop (emptyElementPass (emptyElementPass l))
  else emptyElementPass (emptyElementPass l)
termination_by l.length
decreasing_by
  exact h

/-- `removeEmptyElements_` from `htmlCleaner.ts`: repeat the
empty-element removal until no further element is removed. -/
def removeEmptyElements_ (html : Str) : Str :=
  emptyElementLoop html

/-- Modelled from the spec: `convertHtmlToMarkdown`
(`markdownConverter.ts`) wraps the external `node-html-markdown`
library, which is not part of the repository.  The model keeps text,
renders image elements as `![alt](src)` (the behavior §4.4 of the spec
pins down) and drops other tags.  No theorem below depends on the
internals of this model. -/
def convertHtmlToMarkdown : Str → Str
  | [] => []
  | c :: rest =>
    if c = '<' then
      if ciPfx? (str "img") rest then
        match h1 : splitOnFirst [ '>' ] rest with
        | some (span, r1) =>
          let tagText := '<' :: span ++ [ '>' ]
          str "![" ++ ((findAttrVal (str "alt") tagText).getD []) ++
            str "](" ++ ((findAttrVal (str "src") tagText).getD []) ++
            str ")" ++ convertHtmlToMarkdown r1
        | none => c :: convertHtmlToMarkdown rest
      else
        match h2 : splitOnFirst [ '>' ] rest with
        | some (_, r1) => convertHtmlToMarkdown r1
        | none => c :: convertHtmlToMarkdown rest
    else c :: convertHtmlToMarkdown rest
termination_by l => l.length
decreasing_by
  · have e1 := splitOnFirst_length h1
    simp only [List.length_cons]
    omega
  · simp [Nat.lt_succ_self]
  · have e1 := splitOnFirst_length h2
    simp only [List.length_cons]
    omega
  · simp [Nat.lt_succ_self]
  · simp [Nat.lt_succ_self]

/-- The options record of `cleanHtml` (`CleanHtmlOptions`). -/
structure CleanHtmlOptions where
  removeAttributes : Bool := true
  removeEmptyElements : Bool := true
  normalizeWhitespace : Bool := true
  removeComments : Bool := true
  convertToMarkdown : Bool := false
  deriving Repr, DecidableEq

/-- `cleanHtml` from `htmlCleaner.ts`: the six-step cleaning chain,
steps 2–6 gated by their option flags. -/
def cleanHtml (html : Str) (options : CleanHtmlOptions) : Str :=
  let c1 := removeUnwantedTags html
  let c2 := if options.removeComments then removeHtmlComments c1 else c1
  let c3 := if options.removeAttributes then removeAllAttributes c2 else c2
  let c4 := if options.normalizeWhitespace then normalizeWhitespace_ c3 else c3
  let c5 := if options.removeEmptyElements then removeEmptyElements_ c4 else c4
  if options.convertToMarkdown then convertHtmlToMarkdown c5 else c5

theorem emptyElementPass_nil : emptyElementPass [] = [] := by
  rw [emptyElementPass]

theorem emptyElementPass_cons_some {c : Char} {rest r : Str}
    (h : tryEmptyElement (c :: rest) = some r) :
    emptyElementPass (c :: rest) = emptyElementPass r := by
  rw [emptyElementPass]
  split
  · rename_i r' h'
    rw [h] at h'
    cases Option.some_injective _ h'
    rfl
  · rename_i h'
    rw [h] at h'
    exact absurd h' (by simp)

theorem emptyElementPass_cons_none {c : Char} {rest : Str}
    (h : tryEmptyElement (c :: rest) = none) :
    emptyElementPass (c :: rest) = c :: emptyElementPass rest := by
  rw [emptyElementPass]
  split
  · rename_i r' h'
    rw [h] at h'
    exact absurd h' (by simp)
  · rfl

theorem emptyElementPass_length_le (l : Str) :
    (emptyElementPass l).length ≤ l.length := by
  induction l using emptyElementPass.induct with
  | case1 => simp [emptyElementPass_nil]
  | case2 c rest r h ih =>
    rw [emptyElementPass_cons_some h]
    have h1 := tryEmptyElement_lt h
    simp only [List.length_cons] at h1 ih ⊢
    omega
  | case3 c rest h ih =>
    rw [emptyElementPass_cons_none h]
    simp only [List.length_cons] at ih ⊢
    omega

theorem emptyElementPass_eq_or_lt (l : Str) :
    emptyElementPass l = l ∨ (emptyElementPass l).length < l.length := by
  induction l using emptyElementPass.induct with
  | case1 => left; exact emptyElementPass_nil
  | case2 c rest r h ih =>
    right
    rw [emptyElementPass_cons_some h]
    have h1 := tryEmptyElement_lt h
    have h2 := emptyElementPass_length_le r
    simp only [List.length_cons] at h1 h2 ⊢
    omega
  | case3 c rest h ih =>
    rw [emptyElementPass_cons_none h]
    cases ih with
    | inl he => left; rw [he]
    | inr hl =>
      right
      simp only [List.length_cons]
      omega

theorem emptyElementLoop_isFix (l : Str) :
    emptyElementPass (emptyElementLoop l) = emptyElementLoop l := by
  induction l using emptyElementLoop.induct with
  | case1 l h ih =>
    rw [emptyElementLoop, dif_pos h]
    exact ih
  | case2 l h =>
    rw [emptyElementLoop, dif_neg h]
    have h1 := emptyElementPass_length_le l
    have h2 := emptyElementPass_length_le (emptyElementPass l)
    cases emptyElementPass_eq_or_lt l with
    | inl he => rw [he]; rw [he] at h ⊢; cases emptyElementPass_eq_or_lt l with
      | inl he2 => rw [he2]
      | inr hl2 => omega
    | inr hl => omega

theorem emptyElementLoop_of_fix {l : Str} (hf : emptyElementPass l = l) :
    emptyElementLoop l = l := by
  rw [emptyElementLoop, hf, hf, dif_neg (by omega)]

/-! ## Metadata-block parsing (`recipeExtractionStep`, part of
`url-processor-workflow`) -/

/-- Attempt the capture of `(.+)` after a greedy `\s*` at a fixed
position, dropping `k` whitespace characters; `(.+)` captures up to the
next line terminator and must be nonempty. -/
def capAt (l : Str) (k : Nat) : Option Str :=
  match l.drop k with
  | c :: _ =>
    if isLineTerm c then none
    else some ((l.drop k).takeWhile (fun d => !(isLineTerm d)))
  | [] => none

/-- Backtracking for `\s*(.+)`: try the largest whitespace skip first. -/
def tryCapAux (l : Str) : Nat → Option Str
  | 0 => capAt l 0
  | k + 1 =>
    match capAt l (k + 1) with
    | some v => some v
    | none => tryCapAux l k

/-- Match `\s*(.+)` at the head of `l` (regex backtracking semantics). -/
def tryCapDotPlus (l : Str) : Option Str :=
  tryCapAux l (l.takeWhile isJsWs).length

/-- First match of `label\s*(.+)` anywhere in `l`
(model of `String.match` with patterns like `/NAME:\s*(.+)/`). -/
def findLabelCap (label : Str) : Str → Option Str
  | [] => none
  | c :: rest =>
    if pfx? label (c :: rest) then
      match tryCapDotPlus ((c :: rest).drop label.length) with
      | some v => some v
      | none => findLabelCap label rest
    else findLabelCap label rest

/-- Match `\s*(\d+)` at the head of `l` (whitespace characters are not
digits, so no backtracking case arises). -/
def tryDigits (l : Str) : Option Str :=
  let ds := (l.dropWhile isJsWs).takeWhile isAsciiDigit
  if ds.isEmpty then none else some ds

/-- First match of `label\s*(\d+)` anywhere in `l`. -/
def findLabelDigits (label : Str) : Str → Option Str
  | [] => none
  | c :: rest =>
    if pfx? label (c :: rest) then
      match tryDigits ((c :: rest).drop label.length) with
      | some v => some v
      | none => findLabelDigits label rest
    else findLabelDigits label rest

/-- The metadata block start marker. -/
def metaStart : Str := str "---RECIPE_METADATA---"

/-- The metadata block end marker. -/
def metaEnd : Str := str "---END_METADATA---"

/-- Result of the metadata-parsing block of `recipeExtractionStep`. -/
structure MetaParse where
  recipeName : Option Str
  timeMinutes : Option Nat
  servesPeople : Option Nat
  makesItems : Option Str
  body : Str
  deriving Repr, DecidableEq

/-- The metadata parsing of `recipeExtractionStep`
(`src/unnamed/part_004`, lines 644–667): locate the first
`---RECIPE_METADATA--- … ---END_METADATA---` block, extract the four
recipe fields by label-prefixed match, and strip the block (plus the
whitespace following it) from the body, trimming the result.  Both
source regexes (the block match and the block removal) anchor at the
same first occurrence, so the split is computed once. -/
def parseRecipeMetadata (extractedContent : Str) : MetaParse :=
  match splitOnFirst metaStart extractedContent with
  | none => ⟨none, none, none, none, extractedContent⟩
  | some (a, r) =>
    match splitOnFirst metaEnd r with
    | none => ⟨none, none, none, none, extractedContent⟩
    | some (m, b) =>
      { recipeName := (findLabelCap (str "NAME:") m).map jsTrim
        timeMinutes := (findLabelDigits (str "TIME_MINUTES:") m).map digitsToNat
        servesPeople := (findLabelDigits (str "SERVES_PEOPLE:") m).map digitsToNat
        makesItems := (findLabelCap (str "MAKES_ITEMS:") m).map jsTrim
        body := jsTrim (a ++ b.dropWhile isJsWs) }

/-! ## The url-processor workflow (`src/unnamed/part_004`)

The pipeline state is one record whose fields are the union of the step
schemas; a field a step's return object omits is `none` (JavaScript
`undefined`).  External collaborators (the HTTP fetch and the three
agents) are parameters; an `Except.error` models a thrown/rejected call,
which each step catches as in the source. -/

/-- The route tag. -/
inductive Route
  | normal
  | social
  | error
  deriving Repr, DecidableEq

/-- The pipeline state threaded between steps. -/
structure PState where
  route : Option Route := none
  result : Str := []
  isSocial : Bool := false
  provider : Option Str := none
  displayName : Option Str := none
  isUrl : Bool := false
  originalUrl : Option Str := none
  language : Option Str := none
  units : Option Str := none
  htmlContent : Option Str := none
  cleanedContent : Option Str := none
  imageUrl : Option Str := none
  unitsLength : Option Str := none
  unitsLiquid : Option Str := none
  unitsWeight : Option Str := none
  unitsTemperature : Option Str := none
  isRecipe : Option Bool := none
  recipeData : Option Str := none
  recipeName : Option Str := none
  timeMinutes : Option Nat := none
  servesPeople : Option Nat := none
  makesItems : Option Str := none
  languageCode : Option Str := none
  deriving Repr, DecidableEq

/-- The workflow input (`workflowInputSchema`). -/
structure WFInput where
  input : Str
  language : Option Str := none
  units : Option Str := none
  deriving Repr, DecidableEq

/-- `socialProviderCheckStep`: URL validation and social detection.  A
falsy (empty) `input` hits the `throw new Error("Input data not found")`
guard. -/
def socialProviderCheckStep (inp : WFInput) : Except Str PState :=
  if inp.input.isEmpty then Except.error (str "Input data not found")
  else if !(isValidUrl inp.input) then
    Except.ok { result := str "this is not a url", isSocial := false,
                isUrl := false, originalUrl := none,
                language := inp.language, units := inp.units }
  else
    let socialCheck := detectSocialProvider inp.input
    if socialCheck.isSocial then
      Except.ok { result := str "route_to_social", isSocial := true,
                  provider := socialCheck.provider,
                  displayName := socialCheck.displayName,
                  isUrl := true, originalUrl := some inp.input,
                  language := inp.language, units := inp.units }
    else
      Except.ok { result := str "route_to_normal", isSocial := false,
                  isUrl := true, originalUrl := some inp.input,
                  language := inp.language, units := inp.units }

/-- `routerStep`: turn the social-check result into a route tag.  On the
social branch the output `provider` is the display name. -/
def routerStep (s : PState) : PState :=
  if s.result = str "route_to_social" ∧ s.isSocial ∧ truthy s.provider ∧
      truthy s.displayName then
    { route := some Route.social,
      result := str "this url is from " ++ s.displayName.getD [],
      isSocial := true, provider := s.displayName, isUrl := true,
      originalUrl := s.originalUrl, language := s.language, units := s.units }
  else if s.result = str "this is not a url" then
    { route := some Route.error, result := str "this is not a url",
      isSocial := false, isUrl := false, originalUrl := s.originalUrl,
      language := s.language, units := s.units }
  else if s.result = str "route_to_normal" ∧ s.isUrl ∧ truthy s.originalUrl then
    { route := some Route.normal, result := str "continue_processing",
      isSocial := false, isUrl := true, originalUrl := s.originalUrl,
      language := s.language, units := s.units }
  else
    { route := some Route.error, result := str "Unknown routing error",
      isSocial := false, isUrl := false, originalUrl := s.originalUrl,
      language := s.language, units := s.units }

/-- The `Response` data `processUrlStep` reads. -/
structure FetchResponse where
  ok : Bool
  status : Nat
  statusText : Str
  text : Str
  deriving Repr, DecidableEq

/-- `processUrlStep`: fetch the HTML on the normal route; pass through on
social/error.  The boolean records whether the fetch was performed. -/
def processUrlStep (fetchFn : Str → Except Str FetchResponse) (s : PState) :
    PState × Bool :=
  if s.route = some Route.social ∨ s.route = some Route.error then
    ({ route := s.route, result := s.result, isSocial := s.isSocial,
       provider := s.provider, isUrl := s.isUrl, originalUrl := s.originalUrl,
       language := s.language, units := s.units }, false)
  else if s.route = some Route.normal ∧ truthy s.originalUrl then
    match fetchFn (s.originalUrl.getD []) with
    | Except.ok response =>
      if !response.ok then
        ({ route := some Route.error,
           result := str "Failed to fetch URL: " ++ natToStr response.status ++
             str " " ++ response.statusText,
           isSocial := s.isSocial, provider := s.provider, isUrl := s.isUrl,
           originalUrl := s.originalUrl, language := s.language,
           units := s.units }, true)
      else
        ({ route := s.route, result := str "html_fetched",
           htmlContent := some response.text, isSocial := s.isSocial,
           provider := s.provider, isUrl := s.isUrl,
           originalUrl := s.originalUrl, language := s.language,
           units := s.units }, true)
    | Except.error msg =>
      ({ route := some Route.error,
         result := str "Error fetching URL: " ++ msg,
         isSocial := s.isSocial, provider := s.provider, isUrl := s.isUrl,
         originalUrl := s.originalUrl, language := s.language,
         units := s.units }, true)
  else
    ({ route := some Route.error, result := str "Invalid state for HTML fetching",
       isSocial := s.isSocial, provider := s.provider, isUrl := s.isUrl,
       originalUrl := s.originalUrl, language := s.language,
       units := s.units }, false)

/-- The options `cleanAndConvertStep` passes to `cleanHtml`
(`removeEmptyElements: false  // Keep this false to preserve img tags`). -/
def cleanAndConvertOptions : CleanHtmlOptions :=
  { removeAttributes := true, removeEmptyElements := false,
    normalizeWhitespace := true, removeComments := true,
    convertToMarkdown := true }

/-- `cleanAndConvertStep`: clean the fetched HTML and convert it to
markdown on the normal route; pass through on social/error.  `cleanHtml`
in the model is total, so the source's catch branch cannot fire. -/
def cleanAndConvertStep (s : PState) : PState :=
  if s.route = some Route.social ∨ s.route = some Route.error then
    { route := s.route, result := s.result, imageUrl := s.imageUrl,
      isSocial := s.isSocial, provider := s.provider, isUrl := s.isUrl,
      originalUrl := s.originalUrl, language := s.language, units := s.units }
  else if s.route = some Route.normal ∧ truthy s.htmlContent then
    { route := s.route, result := str "html_cleaned",
      cleanedContent := some (cleanHtml (s.htmlContent.getD []) cleanAndConvertOptions),
      imageUrl := s.imageUrl, isSocial := s.isSocial, provider := s.provider,
      isUrl := s.isUrl, originalUrl := s.originalUrl, language := s.language,
      units := s.units }
  else
    { route := s.route, result := s.result, imageUrl := s.imageUrl,
      isSocial := s.isSocial, provider := s.provider, isUrl := s.isUrl,
      originalUrl := s.originalUrl, language := s.language, units := s.units }

/-- The JSON object shape the unit-parsing agent is asked to return.
Modelled from the spec: the agent response plus `JSON.parse` is an
external collaborator; a `none` result models a response that is not
valid JSON (triggering the algorithmic fallback in the source). -/
structure ParsedUnits where
  unitsLength : Option Str := none
  unitsLiquid : Option Str := none
  unitsWeight : Option Str := none
  unitsTemperature : Option Str := none
  deriving Repr, DecidableEq

/-- The prompt `unitParsingStep` builds. -/
def unitParsingPrompt (units : Option Str) (cleanedContent : Str) : Str :=
  str "Please analyze the user's units request: \"" ++
  (if truthy units then units.getD [] else str "not specified") ++
  str "\" and the following recipe content to determine the appropriate units for each measurement type.\n\nRecipe content:\n" ++
  cleanedContent ++
  str "\n\nPlease return a JSON object with the following structure:\n\x7b\n  \"unitsLength\": \"cm|inch|mm|etc or null if not specified\",\n  \"unitsLiquid\": \"ml|cup|liter|etc or null if not specified\", \n  \"unitsWeight\": \"grams|ounces|kg|etc or null if not specified\",\n  \"unitsTemperature\": \"celsius|fahrenheit|kelvin or null if not specified\"\n\x7d\n\nRules:\n1. If the user specified units (e.g., \"metric\", \"imperial\", \"grams celsius\"), parse what they want\n2. If they didn't specify certain unit types, analyze the recipe's original units and use those defaults\n3. For general terms: \"metric\" = cm/ml/grams/celsius, \"imperial\" = inch/cup/ounces/fahrenheit\n4. Return only the JSON object, no other text"

/-- `units ? parseUnitsCategory(units, cat) : null` — the algorithmic
fallback of `unitParsingStep`. -/
def algUnits (units : Option Str) (cat : UnitCategory) : Option Str :=
  if truthy units then parseUnitsCategory (units.getD []) cat else none

/-- `unitParsingStep`: ask the unit-parsing agent, fall back to
`parseUnitsCategory` when its response does not parse (result
`units_parsed`) or when the call fails (result `units_parsed_fallback`);
pass through on social/error or without content. -/
def unitParsingStep (unitAgent : Str → Except Str (Option ParsedUnits))
    (s : PState) : PState :=
  if s.route = some Route.social ∨ s.route = some Route.error then
    { route := s.route, result := s.result, cleanedContent := s.cleanedContent,
      imageUrl := s.imageUrl, isSocial := s.isSocial, provider := s.provider,
      isUrl := s.isUrl, originalUrl := s.originalUrl, language := s.language,
      units := s.units }
  else if s.route = some Route.normal ∧ truthy s.cleanedContent then
    match unitAgent (unitParsingPrompt s.units (s.cleanedContent.getD [])) with
    | Except.ok parsed =>
      let pu : ParsedUnits :=
        match parsed with
        | some p => p
        | none =>
          { unitsLength := algUnits s.units .length,
            unitsLiquid := algUnits s.units .liquid,
            unitsWeight := algUnits s.units .weight,
            unitsTemperature := algUnits s.units .temperature }
      { route := s.route, result := str "units_parsed",
        cleanedContent := s.cleanedContent, imageUrl := s.imageUrl,
        isSocial := s.isSocial, provider := s.provider, isUrl := s.isUrl,
        originalUrl := s.originalUrl, language := s.language, units := s.units,
        unitsLength := pu.unitsLength, unitsLiquid := pu.unitsLiquid,
        unitsWeight := pu.unitsWeight, unitsTemperature := pu.unitsTemperature }
    | Except.error _ =>
      { route := s.route, result := str "units_parsed_fallback",
        cleanedContent := s.cleanedContent, imageUrl := s.imageUrl,
        isSocial := s.isSocial, provider := s.provider, isUrl := s.isUrl,
        originalUrl := s.originalUrl, language := s.language, units := s.units,
        unitsLength := algUnits s.units .length,
        unitsLiquid := algUnits s.units .liquid,
        unitsWeight := algUnits s.units .weight,
        unitsTemperature := algUnits s.units .temperature }
  else
    { route := s.route, result := s.result, cleanedContent := s.cleanedContent,
      imageUrl := s.imageUrl, isSocial := s.isSocial, provider := s.provider,
      isUrl := s.isUrl, originalUrl := s.originalUrl, language := s.language,
      units := s.units }

/-- `imageExtractionStep`: ask the image agent; a failed call degrades to
no image; pass through on social/error or without content. -/
def imageExtractionStep (imageAgent : Str → Except Str Str) (s : PState) :
    PState :=
  if s.route = some Route.social ∨ s.route = some Route.error then
    { route := s.route, result := s.result, cleanedContent := s.cleanedContent,
      imageUrl := s.imageUrl, isSocial := s.isSocial, provider := s.provider,
      isUrl := s.isUrl, originalUrl := s.originalUrl, language := s.language,
      units := s.units, unitsLength := s.unitsLength,
      unitsLiquid := s.unitsLiquid, unitsWeight := s.unitsWeight,
      unitsTemperature := s.unitsTemperature }
  else if s.route = some Route.normal ∧ truthy s.cleanedContent then
    match imageAgent (str "Please analyze the following markdown content and extract the main recipe image URL:\n\n" ++
        s.cleanedContent.getD []) with
    | Except.ok t =>
      let extractedImageUrl := jsTrim t
      let imageUrl : Option Str :=
        if extractedImageUrl ≠ str "no image found" then some extractedImageUrl
        else none
      { route := s.route,
        result := if truthy imageUrl then str "image_extracted"
          else str "no_image_found",
        cleanedContent := s.cleanedContent, imageUrl := imageUrl,
        isSocial := s.isSocial, provider := s.provider, isUrl := s.isUrl,
        originalUrl := s.originalUrl, language := s.language, units := s.units,
        unitsLength := s.unitsLength, unitsLiquid := s.unitsLiquid,
        unitsWeight := s.unitsWeight, unitsTemperature := s.unitsTemperature }
    | Except.error _ =>
      { route := s.route, result := s.result,
        cleanedContent := s.cleanedContent, imageUrl := none,
        isSocial := s.isSocial, provider := s.provider, isUrl := s.isUrl,
        originalUrl := s.originalUrl, language := s.language, units := s.units,
        unitsLength := s.unitsLength, unitsLiquid := s.unitsLiquid,
        unitsWeight := s.unitsWeight, unitsTemperature := s.unitsTemperature }
  else
    { route := s.route, result := s.result, cleanedContent := s.cleanedContent,
      imageUrl := s.imageUrl, isSocial := s.isSocial, provider := s.provider,
      isUrl := s.isUrl, originalUrl := s.originalUrl, language := s.language,
      units := s.units, unitsLength := s.unitsLength,
      unitsLiquid := s.unitsLiquid, unitsWeight := s.unitsWeight,
      unitsTemperature := s.unitsTemperature }

/-- The prompt `recipeExtractionStep` builds. -/
def recipeExtractionPrompt (language units : Option Str)
    (cleanedContent : Str) : Str :=
  str "Please analyze the following markdown content and extract any recipe information. Remove all website noise and focus only on the recipe data:\n\n" ++
  cleanedContent ++
  (if truthy language then
    str "\n\nIMPORTANT: Please translate the entire recipe (title, ingredients, instructions, and all text) to " ++
      language.getD [] ++ str "."
  else []) ++
  (if truthy units then
    str "\n\nIMPORTANT: Please convert all measurements and temperatures in the recipe according to these units: \"" ++
      units.getD [] ++
      str "\". Use accurate conversion factors (e.g., 1 cup flour ≈ 120g, 1 tablespoon ≈ 15ml, 350°F = 175°C, 200°C = 400°F). If the user didn't specify certain unit types, keep the recipe's original units for those measurements."
  else [])

/-- `recipeExtractionStep`: ask the recipe agent, detect the
`this is not a recipe` sentinel, parse the metadata block, resolve the
language code; on social/error pass through with `isRecipe: false`. -/
def recipeExtractionStep (recipeAgent : Str → Except Str Str) (s : PState) :
    PState :=
  if s.route = some Route.social ∨ s.route = some Route.error then
    { route := s.route, result := s.result, imageUrl := s.imageUrl,
      isRecipe := some false, isSocial := s.isSocial, provider := s.provider,
      isUrl := s.isUrl, originalUrl := s.originalUrl, language := s.language,
      languageCode := none, units := s.units }
  else if s.route = some Route.normal ∧ truthy s.cleanedContent then
    match recipeAgent (recipeExtractionPrompt s.language s.units
        (s.cleanedContent.getD [])) with
    | Except.ok t =>
      let extractedContent := jsTrim t
      let languageCode : Option Str :=
        if truthy s.language then getLanguageISOCode (s.language.getD [])
        else none
      if extractedContent ≠ str "this is not a recipe" then
        let pm := parseRecipeMetadata extractedContent
        { route := s.route, result := extractedContent,
          recipeData := some pm.body, imageUrl := s.imageUrl,
          isRecipe := some true, isSocial := s.isSocial,
          provider := s.provider, isUrl := s.isUrl,
          originalUrl := s.originalUrl, recipeName := pm.recipeName,
          timeMinutes := pm.timeMinutes, servesPeople := pm.servesPeople,
          makesItems := pm.makesItems, unitsLength := s.unitsLength,
          unitsLiquid := s.unitsLiquid, unitsWeight := s.unitsWeight,
          language := s.language, languageCode := languageCode,
          units := s.units, unitsTemperature := s.unitsTemperature }
      else
        { route := s.route, result := extractedContent, recipeData := none,
          imageUrl := s.imageUrl, isRecipe := some false,
          isSocial := s.isSocial, provider := s.provider, isUrl := s.isUrl,
          originalUrl := s.originalUrl, recipeName := none,
          timeMinutes := none, servesPeople := none, makesItems := none,
          unitsLength := s.unitsLength, unitsLiquid := s.unitsLiquid,
          unitsWeight := s.unitsWeight, language := s.language,
          languageCode := languageCode, units := s.units,
          unitsTemperature := s.unitsTemperature }
    | Except.error msg =>
      { route := some Route.error,
        result := str "Error extracting recipe: " ++ msg,
        imageUrl := s.imageUrl, isRecipe := some false,
        isSocial := s.isSocial, provider := s.provider, isUrl := s.isUrl,
        originalUrl := s.originalUrl, language := s.language,
        languageCode := none, units := s.units }
  else
    { route := s.route, result := s.result, imageUrl := s.imageUrl,
      isRecipe := some false, isSocial := s.isSocial, provider := s.provider,
      isUrl := s.isUrl, originalUrl := s.originalUrl, language := s.language,
      languageCode := none, units := s.units }

/-- The nested units object of the final output. -/
structure UnitsOut where
  length : Option Str
  liquid : Option Str
  weight : Option Str
  temperature : Option Str
  deriving Repr, DecidableEq

/-- The assembled workflow output (`endStep` / `workflowOutputSchema`). -/
structure EndOutput where
  result : Str
  recipeData : Option Str
  imageUrl : Option Str
  isUrl : Bool
  isRecipe : Option Bool
  isSocial : Bool
  provider : Option Str
  originalUrl : Option Str
  recipeName : Option Str
  timeMinutes : Option Nat
  servesPeople : Option Nat
  makesItems : Option Str
  language : Option Str
  languageCode : Option Str
  units : UnitsOut
  deriving Repr, DecidableEq

/-- `endStep`: drop the `route` bookkeeping field and nest the four unit
fields. -/
def endStep (s : PState) : EndOutput :=
  { result := s.result, recipeData := s.recipeData, imageUrl := s.imageUrl,
    isUrl := s.isUrl, isRecipe := s.isRecipe, isSocial := s.isSocial,
    provider := s.provider, originalUrl := s.originalUrl,
    recipeName := s.recipeName, timeMinutes := s.timeMinutes,
    servesPeople := s.servesPeople, makesItems := s.makesItems,
    language := s.language, languageCode := s.languageCode,
    units := ⟨s.unitsLength, s.unitsLiquid, s.unitsWeight,
      s.unitsTemperature⟩ }

/-- The external collaborators of one pipeline run. -/
structure Env where
  fetch : Str → Except Str FetchResponse
  unitAgent : Str → Except Str (Option ParsedUnits)
  imageAgent : Str → Except Str Str
  recipeAgent : Str → Except Str Str

/-- The committed workflow: the eight steps in `.then` order.  The
boolean of the result records whether the content fetch was performed. -/
def runPipeline (env : Env) (inp : WFInput) : Except Str (EndOutput × Bool) :=
  match socialProviderCheckStep inp with
  | Except.error e => Except.error e
  | Except.ok s1 =>
    let s2 := routerStep s1
    let pr := processUrlStep env.fetch s2
    let s4 := cleanAndConvertStep pr.1
    let s5 := unitParsingStep env.unitAgent s4
    let s6 := imageExtractionStep env.imageAgent s5
    let s7 := recipeExtractionStep env.recipeAgent s6
    Except.ok (endStep s7, pr.2)

/-- On a successfully parsed URL, `detectSocialProvider` is the source's
if-chain over the cleaned hostname. -/
theorem detectSocialProvider_parsed {url : Str} {u : URLRec}
    (hparse : parseURL url = some u) :
    detectSocialProvider url =
      (if hasInfix (str "tiktok.com") (cleanHostname u) then
        ⟨true, some (str "tiktok"), some (str "TikTok")⟩
      else if hasInfix (str "instagram.com") (cleanHostname u) then
        ⟨true, some (str "instagram"), some (str "Instagram")⟩
      else if hasInfix (str "facebook.com") (cleanHostname u) ||
          hasInfix (str "fb.com") (cleanHostname u) then
        ⟨true, some (str "facebook"), some (str "Facebook")⟩
      else if hasInfix (str "pinterest.com") (cleanHostname u) ||
          hasInfix (str "pin.it") (cleanHostname u) then
        ⟨true, some (str "pinterest"), some (str "Pinterest")⟩
      else if hasInfix (str "twitter.com") (cleanHostname u) ||
          hasInfix (str "x.com") (cleanHostname u) ||
          hasInfix (str "t.co") (cleanHostname u) then
        ⟨true, some (str "x"), some (str "X (Twitter)")⟩
      else ⟨false, none, none⟩ : SocialCheck) := by
  unfold detectSocialProvider
  rw [hparse]

/-- When the first matching row of the provider table (in source order)
is `row`, `detectSocialProvider` reports that row. -/
theorem detectSocialProvider_of_find {url : Str} {u : URLRec}
    {row : List Str × Str × Str} (hparse : parseURL url = some u)
    (hfind : socialTable.find? (rowMatches (cleanHostname u)) = some row) :
    detectSocialProvider url = ⟨true, some row.2.1, some row.2.2⟩ := by
  rw [detectSocialProvider_parsed hparse]
  rw [socialTable] at hfind
  by_cases m1 : rowMatches (cleanHostname u)
      ([str "tiktok.com"], str "tiktok", str "TikTok")
  · rw [List.find?_cons_of_pos _ m1] at hfind
    cases Option.some_injective _ hfind
    have e1 : hasInfix (str "tiktok.com") (cleanHostname u) = true := by
      simpa [rowMatches] using m1
    rw [if_pos e1]
  · rw [List.find?_cons_of_neg _ m1] at hfind
    have e1 : hasInfix (str "tiktok.com") (cleanHostname u) = false := by
      simpa [rowMatches] using m1
    rw [if_neg (by simp [e1])]
    by_cases m2 : rowMatches (cleanHostname u)
        ([str "instagram.com"], str "instagram", str "Instagram")
    · rw [List.find?_cons_of_pos _ m2] at hfind
      cases Option.some_injective _ hfind
      have e2 : hasInfix (str "instagram.com") (cleanHostname u) = true := by
        simpa [rowMatches] using m2
      rw [if_pos e2]
    · rw [List.find?_cons_of_neg _ m2] at hfind
      have e2 : hasInfix (str "instagram.com") (cleanHostname u) = false := by
        simpa [rowMatches] using m2
      rw [if_neg (by simp [e2])]
      by_cases m3 : rowMatches (cleanHostname u)
          ([str "facebook.com", str "fb.com"], str "facebook", str "Facebook")
      · rw [List.find?_cons_of_pos _ m3] at hfind
        cases Option.some_injective _ hfind
        have e3 : (hasInfix (str "facebook.com") (cleanHostname u) ||
            hasInfix (str "fb.com") (cleanHostname u)) = true := by
          simpa [rowMatches, Bool.or_comm] using m3
        rw [if_pos e3]
      · rw [List.find?_cons_of_neg _ m3] at hfind
        have e3 : (hasInfix (str "facebook.com") (cleanHostname u) ||
            hasInfix (str "fb.com") (cleanHostname u)) = false := by
          simpa [rowMatches, Bool.or_comm] using m3
        rw [if_neg (by simp [e3])]
        by_cases m4 : rowMatches (cleanHostname u)
            ([str "pinterest.com", str "pin.it"], str "pinterest",
              str "Pinterest")
        · rw [List.find?_cons_of_pos _ m4] at hfind
          cases Option.some_injective _ hfind
          have e4 : (hasInfix (str "pinterest.com") (cleanHostname u) ||
              hasInfix (str "pin.it") (cleanHostname u)) = true := by
            simpa [rowMatches, Bool.or_comm] using m4
          rw [if_pos e4]
        · rw [List.find?_cons_of_neg _ m4] at hfind
          have e4 : (hasInfix (str "pinterest.com") (cleanHostname u) ||
              hasInfix (str "pin.it") (cleanHostname u)) = false := by
            simpa [rowMatches, Bool.or_comm] using m4
          rw [if_neg (by simp [e4])]
          by_cases m5 : rowMatches (cleanHostname u)
              ([str "twitter.com", str "x.com", str "t.co"], str "x",
                str "X (Twitter)")
          · rw [List.find?_cons_of_pos _ m5] at hfind
            cases Option.some_injective _ hfind
            have e5 : (hasInfix (str "twitter.com") (cleanHostname u) ||
                hasInfix (str "x.com") (cleanHostname u) ||
                hasInfix (str "t.co") (cleanHostname u)) = true := by
              simp only [rowMatches, List.any_cons, List.any_nil,
                Bool.or_false, Bool.or_eq_true] at m5 ⊢
              tauto
            rw [if_pos e5]
          · rw [List.find?_cons_of_neg _ m5] at hfind
            simp at hfind

/-- The five downstream stages on a social/error route: each one
returns the explicit projection its skip branch builds. -/
theorem shortCircuitProjections (s : PState)
    (fetchFn : Str → Except Str FetchResponse)
    (unitAgent : Str → Except Str (Option ParsedUnits))
    (imageAgent recipeAgent : Str → Except Str Str)
    (hroute : s.route = some Route.social ∨ s.route = some Route.error) :
    processUrlStep fetchFn s =
      ({ route := s.route, result := s.result, isSocial := s.isSocial,
         provider := s.provider, isUrl := s.isUrl,
         originalUrl := s.originalUrl, language := s.language,
         units := s.units }, false) ∧
    cleanAndConvertStep s =
      { route := s.route, result := s.result, imageUrl := s.imageUrl,
        isSocial := s.isSocial, provider := s.provider, isUrl := s.isUrl,
        originalUrl := s.originalUrl, language := s.language,
        units := s.units } ∧
    unitParsingStep unitAgent s =
      { route := s.route, result := s.result,
        cleanedContent := s.cleanedContent, imageUrl := s.imageUrl,
        isSocial := s.isSocial, provider := s.provider, isUrl := s.isUrl,
        originalUrl := s.originalUrl, language := s.language,
        units := s.units } ∧
    imageExtractionStep imageAgent s =
      { route := s.route, result := s.result,
        cleanedContent := s.cleanedContent, imageUrl := s.imageUrl,
        isSocial := s.isSocial, provider := s.provider, isUrl := s.isUrl,
        originalUrl := s.originalUrl, language := s.language,
        units := s.units, unitsLength := s.unitsLength,
        unitsLiquid := s.unitsLiquid, unitsWeight := s.unitsWeight,
        unitsTemperature := s.unitsTemperature } ∧
    recipeExtractionStep recipeAgent s =
      { route := s.route, result := s.result, imageUrl := s.imageUrl,
        isRecipe := some false, isSocial := s.isSocial,
        provider := s.provider, isUrl := s.isUrl,
        originalUrl := s.originalUrl, language := s.language,
        languageCode := none, units := s.units } := by
  refine ⟨?_, ?_, ?_, ?_, ?_⟩
  · rw [processUrlStep, if_pos hroute]
  · rw [cleanAndConvertStep, if_pos hroute]
  · rw [unitParsingStep, if_pos hroute]
  · rw [imageExtractionStep, if_pos hroute]
  · rw [recipeExtractionStep, if_pos hroute]

/-! ### Locality lemmas for the cleaning passes

Each global-replace scan leaves a character alone when its pattern cannot
start there; these lemmas let a span of "plain" surrounding text commute
with every pass. -/

/-- A character at which none of the cleaning regexes can start or
continue a match: not whitespace and (case-insensitively) not an angle
bracket, a quote character or the equals sign. -/
def plainChar (c : Char) : Bool :=
  !(isJsWs c) && asciiLower c ≠ '<' && asciiLower c ≠ '>' &&
  asciiLower c ≠ '"' && asciiLower c ≠ '\'' && asciiLower c ≠ '='

theorem plainChar_spec {c : Char} (h : plainChar c = true) :
    isJsWs c = false ∧ asciiLower c ≠ '<' ∧ asciiLower c ≠ '>' ∧
    c ≠ '<' ∧ c ≠ '>' := by
  simp only [plainChar, Bool.and_eq_true, Bool.not_eq_true',
    decide_eq_true_eq] at h
  refine ⟨h.1.1.1.1.1, h.1.1.1.1.2, h.1.1.1.2, fun hc => ?_, fun hc => ?_⟩
  · subst hc
    exact h.1.1.1.1.2 rfl
  · subst hc
    exact h.1.1.1.2 rfl

theorem ciPfx?_lt_false {tag : Str} {c : Char} {rest : Str}
    (h : asciiLower c ≠ '<') : ciPfx? ('<' :: tag) (c :: rest) = false := by
  simp only [ciPfx?, Bool.and_eq_false_iff, decide_eq_false_iff_not]
  left
  intro he
  exact h (he.symm.trans (by decide))

theorem stripPairedTag_nil (tag : Str) : stripPairedTag tag [] = [] := by
  simp [stripPairedTag]

theorem stripPairedTag_cons_neg {tag : Str} {c : Char} {rest : Str}
    (h : ciPfx? ('<' :: tag) (c :: rest) = false) :
    stripPairedTag tag (c :: rest) = c :: stripPairedTag tag rest := by
  rw [stripPairedTag, if_neg (by simp [h])]

theorem stripPairedTag_cons_pos {tag : Str} {c : Char} {rest s1 r1 s2 r2 : Str}
    (h : ciPfx? ('<' :: tag) (c :: rest) = true)
    (h1 : splitOnFirst [ '>' ] ((c :: rest).drop (tag.length + 1)) =
      some (s1, r1))
    (h2 : ciSplitOnFirst ('<' :: '/' :: tag ++ [ '>' ]) r1 = some (s2, r2)) :
    stripPairedTag tag (c :: rest) = stripPairedTag tag r2 := by
  rw [stripPairedTag, if_pos (by simp [h])]
  split
  · rename_i a r heq
    have hr : r = r1 := by
      have := heq.symm.trans h1
      exact congrArg Prod.snd (Option.some_injective _ this)
    subst hr
    split
    · rename_i a2 r2x heq2
      have hr2 : r2x = r2 := by
        have := heq2.symm.trans h2
        exact congrArg Prod.snd (Option.some_injective _ this)
      rw [hr2]
    · rename_i heq2
      rw [heq2] at h2
      exact absurd h2 (by simp)
  · rename_i heq
    rw [heq] at h1
    exact absurd h1 (by simp)

theorem stripPairedTag_append {tag a l : Str}
    (ha : ∀ c ∈ a, asciiLower c ≠ '<') :
    stripPairedTag tag (a ++ l) = a ++ stripPairedTag tag l := by
  induction a with
  | nil => rfl
  | cons c a' ih =>
    rw [List.cons_append,
      stripPairedTag_cons_neg (ciPfx?_lt_false (ha c (by simp))),
      ih (fun d hd => ha d (by simp [hd]))]
    rfl

theorem stripPairedTag_id {tag a : Str} (ha : ∀ c ∈ a, asciiLower c ≠ '<') :
    stripPairedTag tag a = a := by
  have := @stripPairedTag_append tag a [] ha
  simpa [stripPairedTag_nil] using this

theorem stripSelfCloseTag_nil (tag : Str) : stripSelfCloseTag tag [] = [] := by
  simp [stripSelfCloseTag]

theorem stripSelfCloseTag_cons_neg {tag : Str} {c : Char} {rest : Str}
    (h : ciPfx? ('<' :: tag) (c :: rest) = false) :
    stripSelfCloseTag tag (c :: rest) = c :: stripSelfCloseTag tag rest := by
  rw [stripSelfCloseTag, if_neg (by simp [h])]

theorem stripSelfCloseTag_append {tag a l : Str}
    (ha : ∀ c ∈ a, asciiLower c ≠ '<') :
    stripSelfCloseTag tag (a ++ l) = a ++ stripSelfCloseTag tag l := by
  induction a with
  | nil => rfl
  | cons c a' ih =>
    rw [List.cons_append,
      stripSelfCloseTag_cons_neg (ciPfx?_lt_false (ha c (by simp))),
      ih (fun d hd => ha d (by simp [hd]))]
    rfl

theorem stripSelfCloseTag_id {tag a : Str}
    (ha : ∀ c ∈ a, asciiLower c ≠ '<') : stripSelfCloseTag tag a = a := by
  have := @stripSelfCloseTag_append tag a [] ha
  simpa [stripSelfCloseTag_nil] using this

theorem removeHtmlComments_nil : removeHtmlComments [] = [] := by
  simp [removeHtmlComments]

theorem removeHtmlComments_cons_neg {c : Char} {rest : Str}
    (h : pfx? (str "<!--") (c :: rest) = false) :
    removeHtmlComments (c :: rest) = c :: removeHtmlComments rest := by
  rw [removeHtmlComments, if_neg (by simp [h])]

theorem pfx?_ne_head {pat : Str} {p c : Char} {ps rest : Str}
    (hpat : pat = p :: ps) (h : c ≠ p) : pfx? pat (c :: rest) = false := by
  subst hpat
  simp only [pfx?, Bool.and_eq_false_iff, decide_eq_false_iff_not]
  left
  exact fun he => h he.symm

theorem removeHtmlComments_append {a l : Str} (ha : ∀ c ∈ a, c ≠ '<') :
    removeHtmlComments (a ++ l) = a ++ removeHtmlComments l := by
  induction a with
  | nil => rfl
  | cons c a' ih =>
    rw [List.cons_append,
      removeHtmlComments_cons_neg (pfx?_ne_head rfl (ha c (by simp))),
      ih (fun d hd => ha d (by simp [hd]))]
    rfl

theorem removeHtmlComments_id {a : Str} (ha : ∀ c ∈ a, c ≠ '<') :
    removeHtmlComments a = a := by
  have := removeHtmlComments_append (l := []) ha
  simpa [removeHtmlComments_nil] using this

theorem removeAllAttributes_nil : removeAllAttributes [] = [] := by
  simp [removeAllAttributes]

theorem removeAllAttributes_one (c : Char) : removeAllAttributes [c] = [c] := by
  simp [removeAllAttributes]

theorem removeAllAttributes_cons_neg {c d : Char} {rest2 : Str}
    (h : (c = '<' && isAsciiAlpha d) = false) :
    removeAllAttributes (c :: d :: rest2) =
      c :: removeAllAttributes (d :: rest2) := by
  rw [removeAllAttributes, if_neg (by simp [h])]

theorem removeAllAttributes_cons_pos {c d : Char} {rest2 attrSpan r1 : Str}
    (hc : c = '<') (hd : isAsciiAlpha d = true)
    (hsp : splitOnFirst [ '>' ] (rest2.dropWhile isAsciiAlnum) =
      some (attrSpan, r1)) :
    removeAllAttributes (c :: d :: rest2) =
      attrReplacement (d :: rest2.takeWhile isAsciiAlnum)
        ('<' :: (d :: rest2.takeWhile isAsciiAlnum) ++ attrSpan ++ [ '>' ]) ++
        removeAllAttributes r1 := by
  rw [removeAllAttributes, if_pos (by simp [hc, hd])]
  split
  · rename_i a r heq
    have h2 := heq.symm.trans hsp
    have ha : a = attrSpan := congrArg Prod.fst (Option.some_injective _ h2)
    have hr : r = r1 := congrArg Prod.snd (Option.some_injective _ h2)
    rw [ha, hr]
  · rename_i heq
    rw [heq] at hsp
    exact absurd hsp (by simp)

theorem removeAllAttributes_append {a l : Str} (ha : ∀ c ∈ a, c ≠ '<') :
    removeAllAttributes (a ++ l) = a ++ removeAllAttributes l := by
  induction a with
  | nil => rfl
  | cons c a' ih =>
    have hni := ih (fun d hd => ha d (by simp [hd]))
    have hcc : c ≠ '<' := ha c (by simp)
    cases hx : a' ++ l with
    | nil =>
      obtain ⟨ha', hl⟩ := List.append_eq_nil.mp hx
      subst ha'
      subst hl
      simp [removeAllAttributes_one, removeAllAttributes_nil]
    | cons d tail =>
      rw [List.cons_append, hx,
        removeAllAttributes_cons_neg (by simp [hcc]), ← hx, hni]
      rfl

theorem removeAllAttributes_id {a : Str} (ha : ∀ c ∈ a, c ≠ '<') :
    removeAllAttributes a = a := by
  have := removeAllAttributes_append (l := []) ha
  simpa [removeAllAttributes_nil] using this

theorem collapseWs_nil : collapseWs [] = [] := by
  simp [collapseWs]

theorem collapseWs_cons_neg {c : Char} {rest : Str} (h : isJsWs c = false) :
    collapseWs (c :: rest) = c :: collapseWs rest := by
  rw [collapseWs, if_neg (by simp [h])]

theorem collapseWs_cons_ws {c : Char} {rest : Str} (h : isJsWs c = true)
    (hrest : rest.dropWhile isJsWs = rest) :
    collapseWs (c :: rest) = ' ' :: collapseWs rest := by
  rw [collapseWs, if_pos (by simp [h]), hrest]

theorem collapseWs_append {a l : Str} (ha : ∀ c ∈ a, isJsWs c = false) :
    collapseWs (a ++ l) = a ++ collapseWs l := by
  induction a with
  | nil => rfl
  | cons c a' ih =>
    rw [List.cons_append, collapseWs_cons_neg (ha c (by simp)),
      ih (fun d hd => ha d (by simp [hd]))]
    rfl

theorem collapseWs_id {a : Str} (ha : ∀ c ∈ a, isJsWs c = false) :
    collapseWs a = a := by
  have := collapseWs_append (l := []) ha
  simpa [collapseWs_nil] using this

theorem interTagWs_nil : interTagWs [] = [] := by
  simp [interTagWs]

theorem interTagWs_cons_neg {c : Char} {rest : Str}
    (h : (c = '>' && !(rest.takeWhile isJsWs).isEmpty) = false) :
    interTagWs (c :: rest) = c :: interTagWs rest := by
  rw [interTagWs, if_neg (by simp [h])]

theorem interTagWs_append {a l : Str} (ha : ∀ c ∈ a, c ≠ '>') :
    interTagWs (a ++ l) = a ++ interTagWs l := by
  induction a with
  | nil => rfl
  | cons c a' ih =>
    rw [List.cons_append, interTagWs_cons_neg (by simp [ha c (by simp)]),
      ih (fun d hd => ha d (by simp [hd]))]
    rfl

theorem interTagWs_id {a : Str} (ha : ∀ c ∈ a, c ≠ '>') :
    interTagWs a = a := by
  have := interTagWs_append (l := []) ha
  simpa [interTagWs_nil] using this

theorem tryEmptyElement_not_lt {c : Char} {rest : Str} (h : c ≠ '<') :
    tryEmptyElement (c :: rest) = none := by
  rw [tryEmptyElement, if_neg (by simp [h])]

theorem emptyElementPass_append {a l : Str} (ha : ∀ c ∈ a, c ≠ '<') :
    emptyElementPass (a ++ l) = a ++ emptyElementPass l := by
  induction a with
  | nil => rfl
  | cons c a' ih =>
    rw [List.cons_append,
      emptyElementPass_cons_none (tryEmptyElement_not_lt (ha c (by simp))),
      ih (fun d hd => ha d (by simp [hd]))]
    rfl

theorem emptyElementPass_id {a : Str} (ha : ∀ c ∈ a, c ≠ '<') :
    emptyElementPass a = a := by
  have := emptyElementPass_append (l := []) ha
  simpa [emptyElementPass_nil] using this

theorem dropWhile_eq_self_of_head {p : Char → Bool} {l : Str}
    (h : ∀ c, l.head? = some c → p c = false) : l.dropWhile p = l := by
  cases l with
  | nil => rfl
  | cons c rest => simp [List.dropWhile, h c rfl]

theorem jsTrim_eq_self {l : Str}
    (hl : ∀ c, l.head? = some c → isJsWs c = false)
    (hr : ∀ c, l.getLast? = some c → isJsWs c = false) : jsTrim l = l := by
  unfold jsTrim
  rw [dropWhile_eq_self_of_head hl]
  rw [dropWhile_eq_self_of_head (p := isJsWs) (by
    intro c hc
    rw [List.head?_reverse] at hc
    exact hr c hc)]
  exact List.reverse_reverse l

/-- The representative image element of C4 (input form). -/
def imgTagC4 : Str :=
  str "<img src=\"https://example.com/cake.png\" alt=\"Chocolate cake\">"

/-- The image element after attribute rewriting (output form). -/
def imgTagOutC4 : Str :=
  str "<img src=\"https://example.com/cake.png\" alt=\"Chocolate cake\" />"

theorem ciPfx?_cons_ne {p c : Char} {ps rest : Str}
    (h : asciiLower p ≠ asciiLower c) :
    ciPfx? (p :: ps) (c :: rest) = false := by
  simp only [ciPfx?, Bool.and_eq_false_iff, decide_eq_false_iff_not]
  exact Or.inl h

theorem c4_unwanted_tags {T1 T2 : Str} (h1 : ∀ c ∈ T1, asciiLower c ≠ '<')
    (h2 : ∀ c ∈ T2, asciiLower c ≠ '<') :
    removeUnwantedTags (T1 ++ (imgTagC4 ++ T2)) = T1 ++ (imgTagC4 ++ T2) := by
  have hImg : ∀ c ∈ (str "img src=\"https://example.com/cake.png\" alt=\"Chocolate cake\">" : Str),
      asciiLower c ≠ '<' := by decide
  have hsplit : imgTagC4 ++ T2 =
      '<' :: (str "img src=\"https://example.com/cake.png\" alt=\"Chocolate cake\">" ++ T2) := rfl
  have hstep : ∀ tag : Str, ciPfx? ('<' :: tag) (imgTagC4 ++ T2) = false →
      stripPairedTag tag (T1 ++ (imgTagC4 ++ T2)) = T1 ++ (imgTagC4 ++ T2) ∧
      stripSelfCloseTag tag (T1 ++ (imgTagC4 ++ T2)) = T1 ++ (imgTagC4 ++ T2) := by
    intro tag hci
    constructor
    · rw [stripPairedTag_append h1]
      rw [hsplit, stripPairedTag_cons_neg (hsplit ▸ hci),
        stripPairedTag_append hImg, stripPairedTag_id h2]
    · rw [stripSelfCloseTag_append h1]
      rw [hsplit, stripSelfCloseTag_cons_neg (hsplit ▸ hci),
        stripSelfCloseTag_append hImg, stripSelfCloseTag_id h2]
  obtain ⟨hP1, hS1⟩ := hstep (str "script") rfl
  obtain ⟨hP2, hS2⟩ := hstep (str "style") rfl
  obtain ⟨hP3, hS3⟩ := hstep (str "noscript") rfl
  rw [removeUnwantedTags, hP1, hS1, hP2, hS2, hP3, hS3]

theorem c4_comments_pass {T1 T2 : Str} (h1 : ∀ c ∈ T1, c ≠ '<')
    (h2 : ∀ c ∈ T2, c ≠ '<') :
    removeHtmlComments (T1 ++ (imgTagC4 ++ T2)) = T1 ++ (imgTagC4 ++ T2) := by
  have hImg : ∀ c ∈ (str "img src=\"https://example.com/cake.png\" alt=\"Chocolate cake\">" : Str),
      c ≠ '<' := by decide
  have hsplit : imgTagC4 ++ T2 =
      '<' :: (str "img src=\"https://example.com/cake.png\" alt=\"Chocolate cake\">" ++ T2) := rfl
  have hpf : pfx? (str "<!--") (imgTagC4 ++ T2) = false := rfl
  rw [removeHtmlComments_append h1, hsplit,
    removeHtmlComments_cons_neg (hsplit ▸ hpf),
    removeHtmlComments_append hImg, removeHtmlComments_id h2]

theorem c4_attrs_pass {T1 T2 : Str} (h1 : ∀ c ∈ T1, c ≠ '<')
    (h2 : ∀ c ∈ T2, c ≠ '<') :
    removeAllAttributes (T1 ++ (imgTagC4 ++ T2)) =
      T1 ++ (imgTagOutC4 ++ T2) := by
  have hsplit : imgTagC4 ++ T2 =
      '<' :: 'i' :: (str "mg src=\"https://example.com/cake.png\" alt=\"Chocolate cake\">" ++ T2) := rfl
  have hsp : splitOnFirst [ '>' ]
      ((str "mg src=\"https://example.com/cake.png\" alt=\"Chocolate cake\">" ++ T2).dropWhile isAsciiAlnum) =
      some (str " src=\"https://example.com/cake.png\" alt=\"Chocolate cake\"", T2) := rfl
  rw [removeAllAttributes_append h1, hsplit,
    @removeAllAttributes_cons_pos '<' 'i'
      (str "mg src=\"https://example.com/cake.png\" alt=\"Chocolate cake\">" ++ T2)
      (str " src=\"https://example.com/cake.png\" alt=\"Chocolate cake\"") T2
      rfl rfl hsp,
    removeAllAttributes_id h2]
  rfl

theorem collapseWs_seg {A X : Str} (hA : ∀ c ∈ A, isJsWs c = false)
    (hX : collapseWs X = X) : collapseWs (A ++ X) = A ++ X := by
  rw [collapseWs_append hA, hX]

theorem collapseWs_sp {X : Str} (hX : collapseWs X = X)
    (hhd : X.dropWhile isJsWs = X) :
    collapseWs (' ' :: X) = ' ' :: X := by
  rw [@collapseWs_cons_ws ' ' X rfl hhd, hX]

theorem c4_collapse_pass {T2 : Str} (h2 : ∀ c ∈ T2, isJsWs c = false) :
    collapseWs (imgTagOutC4 ++ T2) = imgTagOutC4 ++ T2 := by
  have e1 : collapseWs (str "/>" ++ T2) = str "/>" ++ T2 :=
    collapseWs_seg (by decide) (collapseWs_id h2)
  have e2 : collapseWs (' ' :: (str "/>" ++ T2)) = ' ' :: (str "/>" ++ T2) :=
    collapseWs_sp e1 rfl
  have e3 : collapseWs (str "cake\"" ++ (' ' :: (str "/>" ++ T2))) =
      str "cake\"" ++ (' ' :: (str "/>" ++ T2)) :=
    collapseWs_seg (by decide) e2
  have e4 : collapseWs (' ' :: (str "cake\"" ++ (' ' :: (str "/>" ++ T2)))) =
      ' ' :: (str "cake\"" ++ (' ' :: (str "/>" ++ T2))) :=
    collapseWs_sp e3 rfl
  have e5 : collapseWs (str "alt=\"Chocolate" ++
      (' ' :: (str "cake\"" ++ (' ' :: (str "/>" ++ T2))))) =
      str "alt=\"Chocolate" ++
        (' ' :: (str "cake\"" ++ (' ' :: (str "/>" ++ T2)))) :=
    collapseWs_seg (by decide) e4
  have e6 : collapseWs (' ' :: (str "alt=\"Chocolate" ++
      (' ' :: (str "cake\"" ++ (' ' :: (str "/>" ++ T2)))))) =
      ' ' :: (str "alt=\"Chocolate" ++
        (' ' :: (str "cake\"" ++ (' ' :: (str "/>" ++ T2))))) :=
    collapseWs_sp e5 rfl
  have e7 : collapseWs (str "src=\"https://example.com/cake.png\"" ++
      (' ' :: (str "alt=\"Chocolate" ++
        (' ' :: (str "cake\"" ++ (' ' :: (str "/>" ++ T2))))))) =
      str "src=\"https://example.com/cake.png\"" ++
        (' ' :: (str "alt=\"Chocolate" ++
          (' ' :: (str "cake\"" ++ (' ' :: (str "/>" ++ T2)))))) :=
    collapseWs_seg (by decide) e6
  have e8 : collapseWs (' ' :: (str "src=\"https://example.com/cake.png\"" ++
      (' ' :: (str "alt=\"Chocolate" ++
        (' ' :: (str "cake\"" ++ (' ' :: (str "/>" ++ T2)))))))) =
      ' ' :: (str "src=\"https://example.com/cake.png\"" ++
        (' ' :: (str "alt=\"Chocolate" ++
          (' ' :: (str "cake\"" ++ (' ' :: (str "/>" ++ T2))))))) :=
    collapseWs_sp e7 rfl
  have e9 : collapseWs (str "<img" ++
      (' ' :: (str "src=\"https://example.com/cake.png\"" ++
        (' ' :: (str "alt=\"Chocolate" ++
          (' ' :: (str "cake\"" ++ (' ' :: (str "/>" ++ T2))))))))) =
      str "<img" ++
        (' ' :: (str "src=\"https://example.com/cake.png\"" ++
          (' ' :: (str "alt=\"Chocolate" ++
            (' ' :: (str "cake\"" ++ (' ' :: (str "/>" ++ T2)))))))) :=
    collapseWs_seg (by decide) e8
  have hdec : imgTagOutC4 ++ T2 = str "<img" ++
      (' ' :: (str "src=\"https://example.com/cake.png\"" ++
        (' ' :: (str "alt=\"Chocolate" ++
          (' ' :: (str "cake\"" ++ (' ' :: (str "/>" ++ T2)))))))) := rfl
  rw [hdec]
  exact e9

theorem c4_intertag_pass {T2 : Str} (h2ws : ∀ c ∈ T2, isJsWs c = false)
    (h2gt : ∀ c ∈ T2, c ≠ '>') :
    interTagWs (imgTagOutC4 ++ T2) = imgTagOutC4 ++ T2 := by
  have hA : ∀ c ∈ (str "<img src=\"https://example.com/cake.png\" alt=\"Chocolate cake\" /" : Str),
      c ≠ '>' := by decide
  have hdec : imgTagOutC4 ++ T2 =
      str "<img src=\"https://example.com/cake.png\" alt=\"Chocolate cake\" /" ++
        ('>' :: T2) := rfl
  have htk : T2.takeWhile isJsWs = [] := by
    cases T2 with
    | nil => rfl
    | cons t ts => simp [List.takeWhile_cons, h2ws t (by simp)]
  rw [hdec, interTagWs_append hA,
    interTagWs_cons_neg (by simp [htk]), interTagWs_id h2gt]

theorem mem_of_head?_eq {l : Str} {c : Char} (h : l.head? = some c) :
    c ∈ l := by
  cases l with
  | nil => simp at h
  | cons a t =>
    simp only [List.head?_cons, Option.some.injEq] at h
    rw [← h]
    simp

theorem mem_of_getLast?_eq {l : Str} {c : Char} (h : l.getLast? = some c) :
    c ∈ l := by
  rw [← List.head?_reverse] at h
  exact List.mem_reverse.mp (mem_of_head?_eq h)

theorem head?_append_cases {l₁ l₂ : Str} {c : Char}
    (h : (l₁ ++ l₂).head? = some c) :
    l₁.head? = some c ∨ (l₁ = [] ∧ l₂.head? = some c) := by
  cases l₁ with
  | nil =>
    right
    exact ⟨rfl, by simpa using h⟩
  | cons a t =>
    left
    rw [List.cons_append] at h
    simpa using h

theorem getLast?_append_cases {l₁ l₂ : Str} {c : Char}
    (h : (l₁ ++ l₂).getLast? = some c) :
    l₂.getLast? = some c ∨ (l₂ = [] ∧ l₁.getLast? = some c) := by
  rw [← List.head?_reverse, List.reverse_append] at h
  rcases head?_append_cases h with hh | ⟨hnil, hh⟩
  · left
    rw [← List.head?_reverse]
    exact hh
  · right
    refine ⟨?_, ?_⟩
    · simpa using congrArg List.reverse hnil
    · rw [← List.head?_reverse]
      exact hh

theorem c4_trim_pass {T1 T2 : Str} (h1 : ∀ c ∈ T1, isJsWs c = false)
    (h2 : ∀ c ∈ T2, isJsWs c = false) :
    jsTrim (T1 ++ (imgTagOutC4 ++ T2)) = T1 ++ (imgTagOutC4 ++ T2) := by
  apply jsTrim_eq_self
  · intro c hc
    rcases head?_append_cases hc with hh | ⟨hnil, hh⟩
    · exact h1 c (mem_of_head?_eq hh)
    · rw [show (imgTagOutC4 ++ T2).head? = some '<' from rfl] at hh
      injection hh with he
      rw [← he]
      decide
  · intro c hc
    rcases getLast?_append_cases hc with hh | ⟨hnil, hh⟩
    · rcases getLast?_append_cases hh with hh2 | ⟨hnil2, hh2⟩
      · exact h2 c (mem_of_getLast?_eq hh2)
      · rw [show imgTagOutC4.getLast? = some '>' from by decide] at hh2
        injection hh2 with he
        rw [← he]
        decide
    · exact h1 c (mem_of_getLast?_eq hh)

theorem c4_normalize_pass {T1 T2 : Str}
    (h1ws : ∀ c ∈ T1, isJsWs c = false) (h1gt : ∀ c ∈ T1, c ≠ '>')
    (h2ws : ∀ c ∈ T2, isJsWs c = false) (h2gt : ∀ c ∈ T2, c ≠ '>') :
    normalizeWhitespace_ (T1 ++ (imgTagOutC4 ++ T2)) =
      T1 ++ (imgTagOutC4 ++ T2) := by
  unfold normalizeWhitespace_
  rw [collapseWs_append h1ws, c4_collapse_pass h2ws,
    interTagWs_append h1gt, c4_intertag_pass h2ws h2gt,
    c4_trim_pass h1ws h2ws]

theorem c4_empty_pass {T1 T2 : Str} (h1 : ∀ c ∈ T1, c ≠ '<')
    (h2 : ∀ c ∈ T2, c ≠ '<') :
    removeEmptyElements_ (T1 ++ (imgTagOutC4 ++ T2)) =
      T1 ++ (imgTagOutC4 ++ T2) := by
  have hImg : ∀ c ∈ (str "img src=\"https://example.com/cake.png\" alt=\"Chocolate cake\" />" : Str),
      c ≠ '<' := by decide
  have hsplit : imgTagOutC4 ++ T2 =
      '<' :: (str "img src=\"https://example.com/cake.png\" alt=\"Chocolate cake\" />" ++ T2) := rfl
  have htry : tryEmptyElement
      ('<' :: (str "img src=\"https://example.com/cake.png\" alt=\"Chocolate cake\" />" ++ T2)) =
      none := rfl
  have hfix : emptyElementPass (T1 ++ (imgTagOutC4 ++ T2)) =
      T1 ++ (imgTagOutC4 ++ T2) := by
    rw [emptyElementPass_append h1, hsplit, emptyElementPass_cons_none htry,
      emptyElementPass_append hImg, emptyElementPass_id h2]
  unfold removeEmptyElements_
  exact emptyElementLoop_of_fix hfix

/-- A concrete environment used by concrete-input theorems (its
collaborators are never consulted on the short-circuit routes). -/
def sampleEnv : Env :=
  { fetch := fun _ => Except.error (str "network unavailable")
    unitAgent := fun _ => Except.ok none
    imageAgent := fun _ => Except.ok (str "no image found")
    recipeAgent := fun _ => Except.ok (str "this is not a recipe") }

/-! ## Claims -/

/-- C5: the empty-element removal pass of `sanitize` is idempotent: the
do/while loop of `removeEmptyElements_` already iterates the removal to a
fixed point, so re-running it on its own output removes nothing further
and returns the input unchanged. -/
theorem c5_empty_element_removal_idempotent (html : Str) :
    removeEmptyElements_ (removeEmptyElements_ html) = removeEmptyElements_ html := by
  unfold removeEmptyElements_
  exact emptyElementLoop_of_fix (emptyElementLoop_isFix html)

/-- C9 counterexample: the claim says `categorize("metric", temperature)`
returns `"celsius"`, but the keyword tier runs first and the single-letter
keyword `"c"` is a substring of `"metric"`, so the code returns `"c"`. -/
theorem c9_metric_temperature_counterexample :
    parseUnitsCategory (str "metric") UnitCategory.temperature = some (str "c") ∧
    some (str "c") ≠ some (str "celsius") := by
  constructor
  · decide
  · decide

/-- C9 (amended): for the exact input `"metric"`, `parseUnitsCategory`
returns `"cm"` for length, `"ml"` for liquid and `"grams"` for weight via
the metric fallback, but `"c"` for temperature (the keyword `"c"` matches
inside `"metric"` before the fallback is reached); for the exact input
`"imperial"` it returns `"inch"`, `"cup"`, `"ounces"` and `"fahrenheit"`. -/
theorem c9_metric_imperial_defaults :
    parseUnitsCategory (str "metric") UnitCategory.length = some (str "cm") ∧
    parseUnitsCategory (str "metric") UnitCategory.liquid = some (str "ml") ∧
    parseUnitsCategory (str "metric") UnitCategory.weight = some (str "grams") ∧
    parseUnitsCategory (str "metric") UnitCategory.temperature = some (str "c") ∧
    parseUnitsCategory (str "imperial") UnitCategory.length = some (str "inch") ∧
    parseUnitsCategory (str "imperial") UnitCategory.liquid = some (str "cup") ∧
    parseUnitsCategory (str "imperial") UnitCategory.weight = some (str "ounces") ∧
    parseUnitsCategory (str "imperial") UnitCategory.temperature =
      some (str "fahrenheit") := by
  refine ⟨?_, ?_, ?_, ?_, ?_, ?_, ?_, ?_⟩ <;> decide

/-- C10: the language resolver maps `"Spanish"` to `"es"` by exact
lowercase lookup, passes the unknown two-lowercase-letter input `"xx"`
through unchanged, and returns nothing for `"Klingon"` (no exact match,
no bidirectional substring containment, not two letters). -/
theorem c10_language_resolver_examples :
    getLanguageISOCode (str "Spanish") = some (str "es") ∧
    getLanguageISOCode (str "xx") = some (str "xx") ∧
    getLanguageISOCode (str "Klingon") = none := by
  refine ⟨?_, ?_, ?_⟩ <;> decide

/-- C6: `cleanAndConvertStep` always invokes `cleanHtml` with
`removeEmptyElements: false`, so for every state on the normal route with
(nonempty) fetched HTML the cleaned content is exactly the composition of
unwanted-tag removal, comment removal, attribute stripping, whitespace
normalization and markdown conversion — the empty-element removal pass
never executes. -/
theorem c6_clean_stage_skips_empty_removal (s : PState) (h : Str)
    (hroute : s.route = some Route.normal)
    (hhtml : s.htmlContent = some h) (hne : h ≠ []) :
    cleanAndConvertOptions.removeEmptyElements = false ∧
    (cleanAndConvertStep s).cleanedContent =
      some (convertHtmlToMarkdown (normalizeWhitespace_ (removeAllAttributes
        (removeHtmlComments (removeUnwantedTags h))))) := by
  refine ⟨rfl, ?_⟩
  have hskip : ¬(s.route = some Route.social ∨ s.route = some Route.error) := by
    rw [hroute]; simp
  have hcond : s.route = some Route.normal ∧ truthy s.htmlContent := by
    refine ⟨hroute, ?_⟩
    rw [hhtml]
    simpa [truthy, List.isEmpty_iff] using hne
  rw [cleanAndConvertStep, if_neg hskip, if_pos hcond]
  simp only [hhtml, Option.getD_some]
  rfl

/-- C6 witness. -/
theorem c6_clean_stage_skips_empty_removal_witness :
    cleanAndConvertOptions.removeEmptyElements = false ∧
    (cleanAndConvertStep
      { route := some Route.normal
        htmlContent := some (str "<div><p> hi </p><i></i></div>") }).cleanedContent =
      some (convertHtmlToMarkdown (normalizeWhitespace_ (removeAllAttributes
        (removeHtmlComments (removeUnwantedTags
          (str "<div><p> hi </p><i></i></div>")))))) :=
  c6_clean_stage_skips_empty_removal
    { route := some Route.normal
      htmlContent := some (str "<div><p> hi </p><i></i></div>") }
    (str "<div><p> hi </p><i></i></div>") rfl rfl (by decide)

/-- C3 counterexample: the recipe-extraction stage is not a pure
pass-through on the social route — on a reachable social-route state its
output adds `isRecipe := false` (and the stage also emits no
`cleanedContent`/unit fields), so the output differs from the input. -/
theorem c3_short_circuit_counterexample :
    recipeExtractionStep (fun _ => Except.error [])
      { route := some Route.social
        result := str "this url is from Instagram"
        isSocial := true
        provider := some (str "Instagram")
        isUrl := true
        originalUrl := some (str "https://www.instagram.com/p/abc123") } ≠
      { route := some Route.social
        result := str "this url is from Instagram"
        isSocial := true
        provider := some (str "Instagram")
        isUrl := true
        originalUrl := some (str "https://www.instagram.com/p/abc123") } := by
  decide

/-- C3 (amended): on a social/error route every downstream stage
short-circuits without recomputing anything, copying the fields it emits
unchanged from its input; but each stage emits only its own output
schema's fields, so fields outside it are dropped (`htmlContent` at
clean-and-convert; `cleanedContent` and the four unit fields at recipe
extraction) and the recipe-extraction stage adds `isRecipe := false` with
no `languageCode`. -/
theorem c3_short_circuit_projections (s : PState)
    (fetchFn : Str → Except Str FetchResponse)
    (unitAgent : Str → Except Str (Option ParsedUnits))
    (imageAgent recipeAgent : Str → Except Str Str)
    (hroute : s.route = some Route.social ∨ s.route = some Route.error) :
    processUrlStep fetchFn s =
      ({ route := s.route, result := s.result, isSocial := s.isSocial,
         provider := s.provider, isUrl := s.isUrl,
         originalUrl := s.originalUrl, language := s.language,
         units := s.units }, false) ∧
    cleanAndConvertStep s =
      { route := s.route, result := s.result, imageUrl := s.imageUrl,
        isSocial := s.isSocial, provider := s.provider, isUrl := s.isUrl,
        originalUrl := s.originalUrl, language := s.language,
        units := s.units } ∧
    unitParsingStep unitAgent s =
      { route := s.route, result := s.result,
        cleanedContent := s.cleanedContent, imageUrl := s.imageUrl,
        isSocial := s.isSocial, provider := s.provider, isUrl := s.isUrl,
        originalUrl := s.originalUrl, language := s.language,
        units := s.units } ∧
    imageExtractionStep imageAgent s =
      { route := s.route, result := s.result,
        cleanedContent := s.cleanedContent, imageUrl := s.imageUrl,
        isSocial := s.isSocial, provider := s.provider, isUrl := s.isUrl,
        originalUrl := s.originalUrl, language := s.language,
        units := s.units, unitsLength := s.unitsLength,
        unitsLiquid := s.unitsLiquid, unitsWeight := s.unitsWeight,
        unitsTemperature := s.unitsTemperature } ∧
    recipeExtractionStep recipeAgent s =
      { route := s.route, result := s.result, imageUrl := s.imageUrl,
        isRecipe := some false, isSocial := s.isSocial,
        provider := s.provider, isUrl := s.isUrl,
        originalUrl := s.originalUrl, language := s.language,
        languageCode := none, units := s.units } :=
  shortCircuitProjections s fetchFn unitAgent imageAgent recipeAgent hroute

/-- C3 witness. -/
theorem c3_short_circuit_projections_witness :
    processUrlStep (fun _ => Except.error [])
      { route := some Route.error, result := str "this is not a url" } =
      ({ route := some Route.error, result := str "this is not a url" },
        false) ∧
    cleanAndConvertStep
      { route := some Route.error, result := str "this is not a url" } =
      { route := some Route.error, result := str "this is not a url" } ∧
    unitParsingStep (fun _ => Except.ok none)
      { route := some Route.error, result := str "this is not a url" } =
      { route := some Route.error, result := str "this is not a url" } ∧
    imageExtractionStep (fun _ => Except.ok [])
      { route := some Route.error, result := str "this is not a url" } =
      { route := some Route.error, result := str "this is not a url" } ∧
    recipeExtractionStep (fun _ => Except.ok [])
      { route := some Route.error, result := str "this is not a url" } =
      { route := some Route.error, result := str "this is not a url",
        isRecipe := some false } :=
  c3_short_circuit_projections
    { route := some Route.error, result := str "this is not a url" }
    (fun _ => Except.error []) (fun _ => Except.ok none)
    (fun _ => Except.ok []) (fun _ => Except.ok []) (Or.inr rfl)

/-- C1 counterexample: the empty string does not parse as a URL, yet the
pipeline does not terminate on the error route with result
`"this is not a url"` — the first step's falsy-input guard throws
`"Input data not found"` instead. -/
theorem c1_empty_input_counterexample :
    isValidUrl (str "") = false ∧
    runPipeline sampleEnv { input := str "" } =
      Except.error (str "Input data not found") := by
  constructor
  · decide
  · rfl

/-- C1 (amended): for every nonempty input string that does not parse as
a URL, the pipeline terminates on the error route with `isUrl = false`,
`isRecipe = false` and result exactly `"this is not a url"`, the fetch is
never performed, and no collaborator is consulted (the environment is
arbitrary). -/
theorem c1_invalid_url_short_circuit (env : Env) (lang units : Option Str)
    (s : Str) (hne : s ≠ []) (hval : isValidUrl s = false) :
    runPipeline env { input := s, language := lang, units := units } =
      Except.ok
        ({ result := str "this is not a url", recipeData := none,
           imageUrl := none, isUrl := false, isRecipe := some false,
           isSocial := false, provider := none, originalUrl := none,
           recipeName := none, timeMinutes := none, servesPeople := none,
           makesItems := none, language := lang, languageCode := none,
           units := ⟨none, none, none, none⟩ }, false) := by
  have hemp : s.isEmpty = false := by
    cases s with
    | nil => exact absurd rfl hne
    | cons c rest => rfl
  have h1 : socialProviderCheckStep { input := s, language := lang, units := units } =
      Except.ok
        { result := str "this is not a url"
          isSocial := false
          isUrl := false
          originalUrl := none
          language := lang
          units := units } := by
    rw [socialProviderCheckStep]
    rw [if_neg (by simp [hemp]), if_pos (by simp [hval])]
  rw [runPipeline, h1]
  rfl

/-- C1 witness. -/
theorem c1_invalid_url_short_circuit_witness :
    runPipeline sampleEnv
      { input := str "not a url at all", language := none, units := none } =
      Except.ok
        ({ result := str "this is not a url", recipeData := none,
           imageUrl := none, isUrl := false, isRecipe := some false,
           isSocial := false, provider := none, originalUrl := none,
           recipeName := none, timeMinutes := none, servesPeople := none,
           makesItems := none, language := none, languageCode := none,
           units := ⟨none, none, none, none⟩ }, false) :=
  c1_invalid_url_short_circuit sampleEnv none none (str "not a url at all")
    (by decide) (by decide)

/-- C2: for every syntactically valid URL whose cleaned hostname
(lowercased, leading `www.` stripped) has a first matching row `row` in
the fixed provider table, classification returns `isSocial = true` with
that row's provider and display name, and the pipeline terminates with
result exactly `"this url is from {displayName}"`, never performing the
content fetch (the environment is arbitrary and the fetch flag is
`false`). -/
theorem c2_social_url_short_circuit (env : Env) (lang units : Option Str)
    (url : Str) (u : URLRec) (row : List Str × Str × Str)
    (hparse : parseURL url = some u)
    (hfind : socialTable.find? (rowMatches (cleanHostname u)) = some row) :
    detectSocialProvider url = ⟨true, some row.2.1, some row.2.2⟩ ∧
    runPipeline env { input := url, language := lang, units := units } =
      Except.ok
        ({ result := str "this url is from " ++ row.2.2, recipeData := none,
           imageUrl := none, isUrl := true, isRecipe := some false,
           isSocial := true, provider := some row.2.2,
           originalUrl := some url, recipeName := none, timeMinutes := none,
           servesPeople := none, makesItems := none, language := lang,
           languageCode := none, units := ⟨none, none, none, none⟩ },
          false) := by
  have hdet := detectSocialProvider_of_find hparse hfind
  refine ⟨hdet, ?_⟩
  have hemp : url.isEmpty = false := by
    cases hu : url with
    | nil =>
      rw [hu, show parseURL [] = none from rfl] at hparse
      exact absurd hparse (by simp)
    | cons c rest => rfl
  have hval : isValidUrl url = true := by
    unfold isValidUrl
    rw [hparse]
    rfl
  have hmem := List.mem_of_find?_eq_some hfind
  fin_cases hmem <;>
  · rw [runPipeline, socialProviderCheckStep, if_neg (by simp [hemp]),
      if_neg (by simp [hval]), hdet]
    rfl

/-- C2 witness. -/
theorem c2_social_url_short_circuit_witness :
    detectSocialProvider (str "https://www.instagram.com/p/abc123") =
      ⟨true, some (str "instagram"), some (str "Instagram")⟩ ∧
    runPipeline sampleEnv
      { input := str "https://www.instagram.com/p/abc123",
        language := none, units := none } =
      Except.ok
        ({ result := str "this url is from Instagram", recipeData := none,
           imageUrl := none, isUrl := true, isRecipe := some false,
           isSocial := true, provider := some (str "Instagram"),
           originalUrl := some (str "https://www.instagram.com/p/abc123"),
           recipeName := none, timeMinutes := none, servesPeople := none,
           makesItems := none, language := none, languageCode := none,
           units := ⟨none, none, none, none⟩ }, false) :=
  c2_social_url_short_circuit sampleEnv none none
    (str "https://www.instagram.com/p/abc123")
    ⟨str "https", some (str "www.instagram.com")⟩
    ([str "instagram.com"], str "instagram", str "Instagram")
    (by decide) (by decide)

theorem parseAfterScheme_props {scheme rem : Str} {u : URLRec}
    (h : parseAfterScheme scheme rem = some u) :
    u.scheme = scheme ∧
    (scheme ∈ specialSchemes →
      u.host.isSome = true ∧ (scheme ≠ str "file" → u.host.getD [] ≠ [])) := by
  unfold parseAfterScheme at h
  split at h
  · rename_i hspec
    split at h
    · rename_i hfile
      split at h
      · cases hp : parseHostFromAuthority
            ((rem.drop 2).takeWhile (fun c => !isAuthorityEnd true c)) true with
        | none => rw [hp] at h; simp at h
        | some hst =>
          rw [hp] at h
          simp only [Option.map_some'] at h
          cases Option.some_injective _ h
          exact ⟨rfl, fun _ => ⟨rfl, fun hnf => absurd hfile hnf⟩⟩
      · cases Option.some_injective _ h
        exact ⟨rfl, fun _ => ⟨rfl, fun hnf => absurd hfile hnf⟩⟩
    · rename_i hfile
      split at h
      · rename_i hst heq
        split at h
        · simp at h
        · rename_i hne
          cases Option.some_injective _ h
          refine ⟨rfl, fun _ => ⟨rfl, fun _ => ?_⟩⟩
          simpa [List.isEmpty_iff] using hne
      · simp at h
  · rename_i hspec
    split at h
    · cases hp : parseHostFromAuthority
          ((rem.drop 2).takeWhile (fun c => !isAuthorityEnd false c)) false with
      | none => rw [hp] at h; simp at h
      | some hst =>
        rw [hp] at h
        simp only [Option.map_some'] at h
        cases Option.some_injective _ h
        exact ⟨rfl, fun hs => absurd hs hspec⟩
    · cases Option.some_injective _ h
      exact ⟨rfl, fun hs => absurd hs hspec⟩

/-- C7 counterexample: `new URL("mailto:foo")` succeeds, so `isValidUrl`
returns true, although `mailto:foo` has no authority — refuting "isUrl is
true iff the input parses with both a scheme and an authority present". -/
theorem c7_mailto_counterexample :
    isValidUrl (str "mailto:foo") = true ∧
    urlHasSchemeAndAuthority (str "mailto:foo") = false := by
  constructor
  · decide
  · decide

/-- C7 (amended): `isValidUrl` is true exactly when the input parses as
an absolute URL (per the modelled WHATWG parser); every accepted URL has
a nonempty scheme, and an authority is required only for the special
schemes (with a nonempty host except for `file`).  Relative or malformed
strings fail to parse, and validation is a total function (never
throws). -/
theorem c7_url_validation (s : Str) :
    (isValidUrl s = true ↔ (parseURL s).isSome = true) ∧
    (∀ u, parseURL s = some u →
      u.scheme ≠ [] ∧
      (u.scheme ∈ specialSchemes →
        u.host.isSome = true ∧ (u.scheme ≠ str "file" → u.host.getD [] ≠ []))) := by
  constructor
  · exact Iff.rfl
  · intro u hu
    unfold parseURL at hu
    split at hu
    · rename_i c rest heq
      split at hu
      · split at hu
        · rename_i rem heq2
          have hp := parseAfterScheme_props hu
          refine ⟨?_, ?_⟩
          · rw [hp.1]
            simp [lowerStr]
          · rw [hp.1]
            exact hp.2
        · simp at hu
      · simp at hu
    · simp at hu

/-- C7 witness. -/
theorem c7_url_validation_witness :
    (isValidUrl (str "https://example.com/x") = true ↔
      (parseURL (str "https://example.com/x")).isSome = true) ∧
    ((str "https" : Str) ≠ [] ∧
      ((str "https" : Str) ∈ specialSchemes →
        (some (str "example.com")).isSome = true ∧
        ((str "https" : Str) ≠ str "file" →
          (some (str "example.com")).getD [] ≠ []))) :=
  ⟨(c7_url_validation (str "https://example.com/x")).1,
    (c7_url_validation (str "https://example.com/x")).2
      ⟨str "https", some (str "example.com")⟩ (by decide)⟩

/-- The well-formed metadata block content of C8 (between the markers). -/
def mBlockC8 : Str :=
  str "\nNAME: Pancakes\nTIME_MINUTES: 20\nSERVES_PEOPLE: 4\nMAKES_ITEMS: N/A\n"

/-- C8 counterexample: on a response consisting of the well-formed block
followed by `"\nStep 1: mix."`, the metadata fields parse as claimed but
the returned body is `"Step 1: mix."` — the source also strips the
whitespace that follows the block and trims the result, so the body is
not the response with the delimited block removed verbatim (which would
be `"\nStep 1: mix."`). -/
theorem c8_body_not_verbatim_counterexample :
    (parseRecipeMetadata
      (metaStart ++ mBlockC8 ++ metaEnd ++ str "\nStep 1: mix.")).recipeName =
      some (str "Pancakes") ∧
    (parseRecipeMetadata
      (metaStart ++ mBlockC8 ++ metaEnd ++ str "\nStep 1: mix.")).body =
      str "Step 1: mix." ∧
    (parseRecipeMetadata
      (metaStart ++ mBlockC8 ++ metaEnd ++ str "\nStep 1: mix.")).body ≠
      str "\nStep 1: mix." := by
  refine ⟨?_, ?_, ?_⟩ <;> decide

/-- C8 (amended): for any extraction response containing the well-formed
metadata block (`a` before the first start marker, `b` after the first
end marker), parsing yields `recipeName = "Pancakes"`,
`timeMinutes = 20`, `servesPeople = 4`, `makesItems = "N/A"`, and the
returned body is the response with the delimited block *and the
whitespace immediately following it* removed, then trimmed. -/
theorem c8_metadata_parsing (a b : Str)
    (h1 : splitOnFirst metaStart (a ++ metaStart ++ mBlockC8 ++ metaEnd ++ b) =
      some (a, mBlockC8 ++ metaEnd ++ b))
    (h2 : splitOnFirst metaEnd (mBlockC8 ++ metaEnd ++ b) = some (mBlockC8, b)) :
    parseRecipeMetadata (a ++ metaStart ++ mBlockC8 ++ metaEnd ++ b) =
      { recipeName := some (str "Pancakes"), timeMinutes := some 20,
        servesPeople := some 4, makesItems := some (str "N/A"),
        body := jsTrim (a ++ b.dropWhile isJsWs) } := by
  unfold parseRecipeMetadata
  rw [h1]
  split
  · rename_i heq
    exact absurd heq (by simp)
  · rename_i a1 r heq
    have hinj := Option.some_injective _ heq
    have ha : a = a1 := congrArg Prod.fst hinj
    have hr : (mBlockC8 ++ (metaEnd ++ b)) = r := congrArg Prod.snd hinj
    subst ha
    subst hr
    rw [List.append_assoc] at h2
    rw [h2]
    split
    · rename_i heq2
      exact absurd heq2 (by simp)
    · rename_i m b2 heq2
      have hinj2 := Option.some_injective _ heq2
      have hm : mBlockC8 = m := congrArg Prod.fst hinj2
      have hb : b = b2 := congrArg Prod.snd hinj2
      subst hm
      subst hb
      simp only [MetaParse.mk.injEq]
      refine ⟨by decide, by decide, by decide, by decide, trivial⟩

/-- C8 witness. -/
theorem c8_metadata_parsing_witness :
    parseRecipeMetadata (str "Intro text. " ++ metaStart ++ mBlockC8 ++
        metaEnd ++ str "\nStep 1: mix the batter.") =
      { recipeName := some (str "Pancakes"), timeMinutes := some 20,
        servesPeople := some 4, makesItems := some (str "N/A"),
        body := jsTrim (str "Intro text. " ++
          (str "\nStep 1: mix the batter.").dropWhile isJsWs) } :=
  c8_metadata_parsing (str "Intro text. ") (str "\nStep 1: mix the batter.")
    (by decide) (by decide)

/-- C4 (counterexample): the claim quantifies over any HTML input
containing `<img src="X" alt="Y">`; but when that image element sits
inside a script element, the tag-removal step deletes it together with
the script content, so `cleanHtml` with all default options returns the
empty string even though the input contains the image tag. -/
theorem c4_script_wrapped_counterexample :
    hasInfix (str "<img src=\"https://example.com/cake.png\" alt=\"Chocolate cake\">")
      (str "<script><img src=\"https://example.com/cake.png\" alt=\"Chocolate cake\"></script>") = true ∧
    cleanHtml (str "<script><img src=\"https://example.com/cake.png\" alt=\"Chocolate cake\"></script>")
      {} = [] := by
  constructor
  · decide
  · show removeEmptyElements_ (normalizeWhitespace_ (removeAllAttributes
      (removeHtmlComments (removeUnwantedTags
        (str "<script><img src=\"https://example.com/cake.png\" alt=\"Chocolate cake\"></script>"))))) = []
    have hstrip : stripPairedTag (str "script")
        (str "<script><img src=\"https://example.com/cake.png\" alt=\"Chocolate cake\"></script>") = [] := by
      rw [show (str "<script><img src=\"https://example.com/cake.png\" alt=\"Chocolate cake\"></script>" : Str) =
          '<' :: str "script><img src=\"https://example.com/cake.png\" alt=\"Chocolate cake\"></script>" from rfl,
        @stripPairedTag_cons_pos (str "script") '<'
          (str "script><img src=\"https://example.com/cake.png\" alt=\"Chocolate cake\"></script>")
          [] (str "<img src=\"https://example.com/cake.png\" alt=\"Chocolate cake\"></script>")
          (str "<img src=\"https://example.com/cake.png\" alt=\"Chocolate cake\">") []
          rfl rfl rfl,
        stripPairedTag_nil]
    have hTags : removeUnwantedTags
        (str "<script><img src=\"https://example.com/cake.png\" alt=\"Chocolate cake\"></script>") = [] := by
      unfold removeUnwantedTags
      rw [hstrip, stripSelfCloseTag_nil, stripPairedTag_nil,
        stripSelfCloseTag_nil, stripPairedTag_nil, stripSelfCloseTag_nil]
    have hNorm : normalizeWhitespace_ [] = [] := by
      unfold normalizeWhitespace_
      rw [collapseWs_nil, interTagWs_nil]
      rfl
    have hEmpty : removeEmptyElements_ [] = [] := by
      unfold removeEmptyElements_
      exact emptyElementLoop_of_fix emptyElementPass_nil
    rw [hTags, removeHtmlComments_nil, removeAllAttributes_nil, hNorm, hEmpty]

/-- C4 (amended): for the representative image element
`<img src="https://example.com/cake.png" alt="Chocolate cake">`
surrounded by arbitrary plain text (no whitespace, `<`, `>`, quotes or
`=`), `cleanHtml` with all default options (including
`removeEmptyElements = true`) keeps the image: the attribute step
re-emits exactly `src` and `alt` in self-closing form, and neither
whitespace normalization nor empty-element removal (whose regex excludes
`img` via its negative lookahead) touches it. -/
theorem c4_image_preserved (T1 T2 : Str)
    (h1 : ∀ c ∈ T1, plainChar c = true)
    (h2 : ∀ c ∈ T2, plainChar c = true) :
    cleanHtml (T1 ++ (imgTagC4 ++ T2)) {} = T1 ++ (imgTagOutC4 ++ T2) := by
  have h1ws : ∀ c ∈ T1, isJsWs c = false :=
    fun c hc => (plainChar_spec (h1 c hc)).1
  have h1al : ∀ c ∈ T1, asciiLower c ≠ '<' :=
    fun c hc => (plainChar_spec (h1 c hc)).2.1
  have h1lt : ∀ c ∈ T1, c ≠ '<' :=
    fun c hc => (plainChar_spec (h1 c hc)).2.2.2.1
  have h1gt : ∀ c ∈ T1, c ≠ '>' :=
    fun c hc => (plainChar_spec (h1 c hc)).2.2.2.2
  have h2ws : ∀ c ∈ T2, isJsWs c = false :=
    fun c hc => (plainChar_spec (h2 c hc)).1
  have h2al : ∀ c ∈ T2, asciiLower c ≠ '<' :=
    fun c hc => (plainChar_spec (h2 c hc)).2.1
  have h2lt : ∀ c ∈ T2, c ≠ '<' :=
    fun c hc => (plainChar_spec (h2 c hc)).2.2.2.1
  have h2gt : ∀ c ∈ T2, c ≠ '>' :=
    fun c hc => (plainChar_spec (h2 c hc)).2.2.2.2
  show removeEmptyElements_ (normalizeWhitespace_ (removeAllAttributes
    (removeHtmlComments (removeUnwantedTags (T1 ++ (imgTagC4 ++ T2)))))) =
    T1 ++ (imgTagOutC4 ++ T2)
  rw [c4_unwanted_tags h1al h2al, c4_comments_pass h1lt h2lt,
    c4_attrs_pass h1lt h2lt, c4_normalize_pass h1ws h1gt h2ws h2gt,
    c4_empty_pass h1lt h2lt]

/-- Witness for C4: concrete plain context around the image element. -/
theorem c4_image_preserved_witness :
    ((∀ c ∈ (str "Cake:" : Str), plainChar c = true) ∧
      (∀ c ∈ (str "end." : Str), plainChar c = true)) ∧
    cleanHtml (str "Cake:" ++ (imgTagC4 ++ str "end.")) {} =
      str "Cake:" ++ (imgTagOutC4 ++ str "end.") :=
  ⟨⟨by decide, by decide⟩,
    c4_image_preserved (str "Cake:") (str "end.") (by decide) (by decide)⟩

end Recipist
